import Mathlib

/-!
Verification development for the expense-photo-platform repository.

The Excel import pipeline (src/app/page.tsx: parseExcelForPreview and
saveExcelPreviewToDb), the legacy import (importExcelToItems), the photo
upload route (src/app/api/photos/upload/route.ts) and the export route
(src/app/expense/export/route.ts) are shallowly embedded as pure Lean
functions.  Worksheet cells are modelled as text values (the grid produced
by sheet_to_json with defval set to the empty string); JavaScript numbers
are modelled as rationals.
-/

set_option maxHeartbeats 2000000

/-- Numeric value of a list of decimal digit characters, most significant first. -/
def digitsVal (cs : List Char) : Nat :=
  cs.foldl (fun a c => 10 * a + (c.toNat - 48)) 0

/-- Models the trim method of JavaScript strings: strip leading and
trailing whitespace. -/
def jsTrim (s : String) : String :=
  String.mk ((((s.toList.dropWhile Char.isWhitespace).reverse).dropWhile
    Char.isWhitespace).reverse)

/-- Models the toLowerCase method on the simple character mapping. -/
def jsToLower (s : String) : String :=
  String.mk (s.toList.map Char.toLower)

/-- Models the startsWith method of JavaScript strings. -/
def jsStartsWith (s pat : String) : Bool :=
  pat.toList.isPrefixOf s.toList

/-- Models the endsWith method of JavaScript strings. -/
def jsEndsWith (s pat : String) : Bool :=
  pat.toList.isSuffixOf s.toList

/-- Models the JavaScript Number() coercion of a text value, restricted to
optionally signed decimal numerals (integer part, optional fractional part);
the empty or all-whitespace string coerces to 0, anything else that is not a
plain decimal numeral is NaN, modelled as none.  Exponent, hexadecimal and
Infinity forms are outside the modelled input language. -/
def jsNumber (s : String) : Option ℚ :=
  let t := jsTrim s
  if t = "" then some 0 else
  let cs := t.toList
  let signAndRest : Bool × List Char :=
    match cs with
    | c :: r => if c = '-' then (true, r) else if c = '+' then (false, r) else (false, cs)
    | [] => (false, cs)
  let neg := signAndRest.1
  let cs1 := signAndRest.2
  let ip := cs1.takeWhile (fun c => c.isDigit)
  let r1 := cs1.dropWhile (fun c => c.isDigit)
  match r1 with
  | [] =>
    if ip.isEmpty then none
    else some (if neg then -(digitsVal ip : ℚ) else (digitsVal ip : ℚ))
  | c :: r2 =>
    if c = '.' then
      let fp := r2.takeWhile (fun x => x.isDigit)
      let r3 := r2.dropWhile (fun x => x.isDigit)
      if r3.isEmpty && !(ip.isEmpty && fp.isEmpty) then
        let v : ℚ := (digitsVal ip : ℚ) + (digitsVal fp : ℚ) / ((10 : ℚ) ^ fp.length)
        some (if neg then -v else v)
      else none
    else none

/-- Removes every comma, modelling the replace of commas with nothing. -/
def stripCommas (s : String) : String :=
  String.mk (s.toList.filter (fun c => c ≠ ','))

/-- Injective rendering of a rational used where JavaScript stringifies a
number into a template literal; integers render as their decimal numeral,
exactly as in JavaScript. -/
def ratKeyStr (q : ℚ) : String :=
  if q.den = 1 then toString q.num else toString q.num ++ "/" ++ toString q.den

/-- Decimal numeral value of a digit string. -/
def digitsToNat (s : String) : Nat := digitsVal s.toList

/-- Models padStart 2 with the zero character. -/
def pad2 (s : String) : String :=
  if 2 ≤ s.length then s else if s.length = 1 then "0" ++ s else "00"

/-- Matcher for the anchored regex of two date digits, a dot, one or two
digits, a dot, one or two digits (the two-digit-year dotted date shape). -/
def matchDotYY (s : String) : Option (String × String × String) :=
  let cs := s.toList
  let a := cs.takeWhile (fun c => c.isDigit)
  let r1 := cs.dropWhile (fun c => c.isDigit)
  if a.length = 2 then
    match r1 with
    | c1 :: r2 =>
      if c1 = '.' then
        let b := r2.takeWhile (fun c => c.isDigit)
        let r3 := r2.dropWhile (fun c => c.isDigit)
        if b.length = 1 ∨ b.length = 2 then
          match r3 with
          | c2 :: r4 =>
            if c2 = '.' then
              let d := r4.takeWhile (fun c => c.isDigit)
              let r5 := r4.dropWhile (fun c => c.isDigit)
              if (d.length = 1 ∨ d.length = 2) ∧ r5 = [] then
                some (String.mk a, String.mk b, String.mk d)
              else none
            else none
          | [] => none
        else none
      else none
    | [] => none
  else none

/-- Matcher for the anchored regex of four date digits, a dash or dot, one or
two digits, a dash or dot, one or two digits (the four-digit-year shape). -/
def matchSepYYYY (s : String) : Option (String × String × String) :=
  let cs := s.toList
  let a := cs.takeWhile (fun c => c.isDigit)
  let r1 := cs.dropWhile (fun c => c.isDigit)
  if a.length = 4 then
    match r1 with
    | c1 :: r2 =>
      if c1 = '-' ∨ c1 = '.' then
        let b := r2.takeWhile (fun c => c.isDigit)
        let r3 := r2.dropWhile (fun c => c.isDigit)
        if b.length = 1 ∨ b.length = 2 then
          match r3 with
          | c2 :: r4 =>
            if c2 = '-' ∨ c2 = '.' then
              let d := r4.takeWhile (fun c => c.isDigit)
              let r5 := r4.dropWhile (fun c => c.isDigit)
              if (d.length = 1 ∨ d.length = 2) ∧ r5 = [] then
                some (String.mk a, String.mk b, String.mk d)
              else none
            else none
          | [] => none
        else none
      else none
    | [] => none
  else none

/-- Substring test, modelling the includes method of JavaScript strings. -/
def strContains (s pat : String) : Bool :=
  (s.toList.tails).any (fun t => pat.toList.isPrefixOf t)


namespace Page

/-!
Embedding of the Excel import pipeline of src/app/page.tsx:
the helpers toNumberOrNull, toNumberOrZero, toDateDisplay and toDateForDb,
the two-phase import parseExcelForPreview (parse to a preview list) and
saveExcelPreviewToDb (commit the preview into the item rows of the document).
-/

/-- Models toNumberOrNull: coerce after trimming and stripping commas,
keep only finite positive numbers. -/
def toNumberOrNull (v : String) : Option ℚ :=
  match jsNumber (stripCommas (jsTrim v)) with
  | some n => if 0 < n then some n else none
  | none => none

/-- Models toNumberOrZero (used for unit price and amount, zero allowed):
null or empty input gives null, otherwise coerce after trimming and
stripping commas, keeping any finite number. -/
def toNumberOrZero (v : String) : Option ℚ :=
  if v = "" then none
  else jsNumber (stripCommas (jsTrim v))

/-- Models the text branch of toDateDisplay: empty input gives null,
otherwise the trimmed text (empty after trimming also gives null).  The
numeric spreadsheet-serial branch is outside the text-cell grid model. -/
def toDateDisplay (v : String) : Option String :=
  let s := jsTrim v
  if s = "" then none else some s

/-- Models toDateForDb: a two-digit-year dotted date becomes a four-digit
ISO date (years of at least 70 map into the 1900s, the rest into the
2000s), a four-digit-year dash or dot date is normalised to ISO, and any
other non-empty text is returned unchanged. -/
def toDateForDb (s : Option String) : Option String :=
  match s with
  | none => none
  | some str =>
    if str = "" then none
    else
      match matchDotYY str with
      | some (yy, mm, dd) =>
        let yyyy := if 70 ≤ digitsToNat yy then "19" ++ yy else "20" ++ yy
        some (yyyy ++ "-" ++ pad2 mm ++ "-" ++ pad2 dd)
      | none =>
        match matchSepYYYY str with
        | some (y, mm, dd) => some (y ++ "-" ++ pad2 mm ++ "-" ++ pad2 dd)
        | none => some str

/-- Bracket characters removed by the header normaliser. -/
def bracketChars : List Char :=
  ['(', ')', '【', '】', '[', ']', Char.ofNat 123, Char.ofNat 125]

/-- Models the norm helper: trim, lowercase, remove whitespace, remove
bracket characters, remove dots, colons and middle dots. -/
def norm (s : String) : String :=
  let lowered := jsToLower (jsTrim s)
  let noWs := String.mk (lowered.toList.filter (fun c => !c.isWhitespace))
  let noBr := String.mk (noWs.toList.filter (fun c => !(bracketChars.contains c)))
  String.mk (noBr.toList.filter (fun c => !(c = '.' ∨ c = ':' ∨ c = '·')))

/-- Models the header-row score of findHeaderRow in parseExcelForPreview. -/
def headerScore (row : List String) : Nat :=
  let r := row.map norm
  (if "항목" ∈ r then 3 else 0) +
  (if "사용내역" ∈ r ∨ r.any (fun c => c = "품명" ∨ c = "내용" ∨ c = "적요") then 2 else 0) +
  (if "사용일자" ∈ r ∨ "일자" ∈ r then 1 else 0) +
  (if "수량" ∈ r then 2 else 0)

/-- Shared loop of the two findHeaderRow implementations: scan rows,
keeping the first row whose score strictly exceeds the best so far. -/
def bestScoreRowAux (score : List String → Nat) :
    List (List String) → Nat → Option Nat × Nat → Option Nat × Nat
  | [], _, best => best
  | row :: rest, i, (bi, bs) =>
    let sc := score row
    bestScoreRowAux score rest (i + 1) (if bs < sc then (some i, sc) else (bi, bs))

/-- Best-scoring row among the first thirty rows; none when every score is 0,
modelling the index of minus one. -/
def bestScoreRow (score : List String → Nat) (rows : List (List String)) : Option Nat :=
  (bestScoreRowAux score (rows.take 30) 0 (none, 0)).1

/-- Models findHeaderRow of parseExcelForPreview. -/
def findHeaderRow (rows : List (List String)) : Option Nat :=
  bestScoreRow headerScore rows

/-- Models the colIndex helper: first column whose normalised header is one
of the candidate synonyms; none models the index of minus one. -/
def colIndexAux : Nat → List String → List String → Option Nat
  | _, [], _ => none
  | i, h :: t, cands => if h ∈ cands then some i else colIndexAux (i + 1) t cands

/-- First matching column index for a candidate list. -/
def colIndex (header cands : List String) : Option Nat := colIndexAux 0 header cands

/-- Cell lookup through an optional column index; a missing column or a
missing cell reads as the empty string (sheet_to_json defval). -/
def cellAt (r : List String) (c : Option Nat) : String :=
  match c with
  | none => ""
  | some i => r.getD i ""

/-- Models the anchored case-insensitive regex matching exactly the total
tokens 계 or 합계. -/
def isGye (s : String) : Bool :=
  decide (s = "계") || decide (s = "합계")

/-- Models the ExcelPreviewRow record produced by parseExcelForPreview. -/
structure ExcelPreviewRow where
  category : String
  used_at : Option String
  item_name : String
  qty : ℚ
  isDetail : Bool
  evidence_no : Option Nat
  unit_price : Option ℚ
  amount : Option ℚ
deriving DecidableEq, Repr

/-- Models the body loop of parseExcelForPreview: carry the last seen
category down the rows, classify each row, and push it when it carries a
category, an item name, a date or a positive quantity. -/
def previewLoop (cHang cDate cName cQty cUnit cAmt : Option Nat) :
    String → List (List String) → List ExcelPreviewRow
  | _, [] => []
  | lastCat, r :: rest =>
    let rawHang := jsTrim (cellAt r cHang)
    let rawName := jsTrim (cellAt r cName)
    let rawQty := cellAt r cQty
    let rawDate := cellAt r cDate
    let rawUnit := cellAt r cUnit
    let rawAmt := cellAt r cAmt
    let category := if rawHang = "" then lastCat else rawHang
    let nextLast := if rawHang = "" then lastCat else rawHang
    let qty := (toNumberOrNull rawQty).getD 0
    let used_at := toDateDisplay rawDate
    let item_name := rawName
    let isDet := decide (item_name ≠ "") && !(isGye item_name)
    let unit_price := match cUnit with | none => none | some _ => toNumberOrZero rawUnit
    let amount := match cAmt with | none => none | some _ => toNumberOrZero rawAmt
    let tail := previewLoop cHang cDate cName cQty cUnit cAmt nextLast rest
    if category ≠ "" ∨ item_name ≠ "" ∨ used_at.isSome ∨ 0 < qty then
      { category := category, used_at := used_at, item_name := item_name, qty := qty,
        isDetail := isDet, evidence_no := none, unit_price := unit_price,
        amount := amount } :: tail
    else tail

/-- A category-only row: not a detail row and carrying no data at all. -/
def catOnlyRow (p : ExcelPreviewRow) : Bool :=
  !p.isDetail && decide (p.item_name = "") && decide (p.used_at = none) &&
    decide (p.qty = 0) && decide (p.amount = none) && decide (p.unit_price = none)

/-- Condition under which the collapse loop keeps absorbing the next row:
a category-only row whose category is not a total token. -/
def collapseCond (p : ExcelPreviewRow) : Bool :=
  catOnlyRow p && !(isGye p.category)

/-- Accumulates the category texts of absorbed rows, skipping empty and
already collected texts, in order. -/
def mergeParts (parts : List String) (grabbed : List ExcelPreviewRow) : List String :=
  grabbed.foldl
    (fun ps n => if n.category ≠ "" ∧ n.category ∉ ps then ps ++ [n.category] else ps) parts

/-- Models the collapse loop of parseExcelForPreview: a maximal run of
adjacent category-only rows merges into a single row whose category is the
space-joined list of the distinct category texts; the loop index then
continues after the consumed run.  The loop is written with an explicit
fuel so that it computes; every step consumes at least the head row, so
the list length is always enough fuel and the zero-fuel case is never
reached by collapseRows. -/
def collapseRowsGo : Nat → List ExcelPreviewRow → List ExcelPreviewRow
  | _, [] => []
  | 0, l => l
  | fuel + 1, row :: rest =>
    if collapseCond row then
      let grabbed := rest.takeWhile collapseCond
      let rest2 := rest.drop grabbed.length
      let parts := mergeParts [row.category] grabbed
      let joined := jsTrim (String.intercalate " " parts)
      { row with category := if joined = "" then row.category else joined } ::
        collapseRowsGo fuel rest2
    else row :: collapseRowsGo fuel rest

/-- The collapse loop on a whole preview list. -/
def collapseRows (l : List ExcelPreviewRow) : List ExcelPreviewRow :=
  collapseRowsGo l.length l

/-- Models the hasData filter: keep detail rows and any row with a date, a
positive quantity, a nonzero amount or a nonzero unit price; total rows and
all other empty rows are dropped. -/
def hasData (p : ExcelPreviewRow) : Bool :=
  p.isDetail || p.used_at.isSome || decide (0 < p.qty) ||
  (match p.amount with | some a => decide (a ≠ 0) | none => false) ||
  (match p.unit_price with | some u => decide (u ≠ 0) | none => false)

/-- Models the evidence-number loop: detail rows receive consecutive
numbers from the running counter, other rows are untouched. -/
def assignEvidenceLoop : Nat → List ExcelPreviewRow → List ExcelPreviewRow
  | _, [] => []
  | n, p :: rest =>
    if p.isDetail then { p with evidence_no := some n } :: assignEvidenceLoop (n + 1) rest
    else p :: assignEvidenceLoop n rest

/-- Models parseExcelForPreview on the text grid of the first sheet: find
the header row, map the columns, build, collapse and filter the preview
rows, and number the detail rows from 1; none models every early-return
error path (header not found, both the item-description and the category
column missing, or no detail row to save). -/
def parseExcelForPreview (rows : List (List String)) : Option (List ExcelPreviewRow) :=
  match findHeaderRow rows with
  | none => none
  | some headerIdx =>
    let header := (rows.getD headerIdx []).map norm
    let cHang := colIndex header ["항목", "구분", "대분류"]
    let cDate := colIndex header ["사용일자", "일자", "사용일", "발행일자"]
    let cName := colIndex header ["사용내역", "품명", "내용", "적요", "품목", "품목명"]
    let cQty := colIndex header ["수량"]
    let cUnit := colIndex header ["단가"]
    let cAmt := colIndex header ["금액", "사용금액", "합계"]
    if cName = none ∧ cHang = none then none
    else
      let body := rows.drop (headerIdx + 1)
      let preview := previewLoop cHang cDate cName cQty cUnit cAmt "" body
      let collapsed := collapseRows preview
      let filtered := collapsed.filter hasData
      if (filtered.filter (fun p => p.isDetail)).length = 0 then none
      else some (assignEvidenceLoop 1 filtered)

/-- A persisted expense item row of the document, as selected and inserted
by saveExcelPreviewToDb. -/
structure DbItem where
  evidence_no : Option Nat
  item_name : String
  qty : ℚ
  unit_price : Option ℚ
  amount : Option ℚ
  used_at : Option String
deriving DecidableEq, Repr

/-- Date part of a content key: a null or empty date reads as the empty
string, otherwise the first ten characters. -/
def jsDateKey (o : Option String) : String :=
  match o with
  | none => ""
  | some s => if s = "" then "" else s.take 10

/-- Content key of an existing database row, the template literal joining
item name, truncated date and quantity with vertical bars. -/
def dbKey (r : DbItem) : String :=
  r.item_name ++ "|" ++ jsDateKey r.used_at ++ "|" ++ ratKeyStr r.qty

/-- Content key of a preview row: same shape, with the date first sent
through toDateForDb. -/
def previewKey (p : ExcelPreviewRow) : String :=
  p.item_name ++ "|" ++ jsDateKey (toDateForDb p.used_at) ++ "|" ++ ratKeyStr p.qty

/-- Models the duplicate-skipping loop of saveExcelPreviewToDb: a detail
row whose key is already known is skipped, otherwise its key is added and
the row queued for insertion. -/
def dedupLoop : List String → List ExcelPreviewRow → List ExcelPreviewRow →
    List String × List ExcelPreviewRow
  | keys, acc, [] => (keys, acc)
  | keys, acc, p :: rest =>
    if previewKey p ∈ keys then dedupLoop keys acc rest
    else dedupLoop (previewKey p :: keys) (acc ++ [p]) rest

/-- Database row built from a queued preview row and its assigned number. -/
def mkDbRow (n : Nat) (p : ExcelPreviewRow) : DbItem :=
  { evidence_no := some n, item_name := p.item_name, qty := p.qty,
    unit_price := p.unit_price, amount := p.amount,
    used_at := toDateForDb p.used_at }

/-- Models the insert-payload construction: queued rows receive consecutive
evidence numbers starting from the given next number. -/
def insertNumbered : Nat → List ExcelPreviewRow → List DbItem
  | _, [] => []
  | n, p :: rest => mkDbRow n p :: insertNumbered (n + 1) rest

/-- Models saveExcelPreviewToDb as a function on the persisted
item list: compute the existing content keys and the maximal existing
evidence number, skip preview detail rows whose key is already present,
and append the remaining rows numbered from the maximum plus one.  Every
early return leaves the list unchanged. -/
def saveExcelPreviewToDb (db : List DbItem) (preview : List ExcelPreviewRow) :
    List DbItem :=
  if preview.isEmpty then db else
  let detailRows := preview.filter (fun p => p.isDetail)
  if detailRows.isEmpty then db else
  let maxEvidenceNo := db.foldl (fun m r => max m (r.evidence_no.getD 0)) 0
  let existingKeys := db.map dbKey
  let toInsert := (dedupLoop existingKeys [] detailRows).2
  if toInsert.isEmpty then db
  else db ++ insertNumbered (maxEvidenceNo + 1) toInsert

end Page

namespace LegacyPage

/-!
Embedding of the superseded import pipeline importExcelToItems (the earlier
revision of the home page kept in the repository): its own header scoring,
its own numeric coercion (no comma stripping), the joint item-name and
quantity column requirement, and the duplicate evidence-number batch check.
-/

/-- Models the legacy toNumberOrNull: coerce the trimmed text without comma
stripping, keep only finite positive numbers. -/
def toNumberOrNull (v : String) : Option ℚ :=
  match jsNumber (jsTrim v) with
  | some n => if 0 < n then some n else none
  | none => none

/-- Models toDateOrNull: the trimmed text, or null when empty. -/
def toDateOrNull (v : String) : Option String :=
  let s := jsTrim v
  if s = "" then none else some s

/-- Models the legacy header-row score of findHeaderRow. -/
def headerScore (row : List String) : Nat :=
  let r := row.map Page.norm
  (if r.any (fun c => c = "no" ∨ c = "증빙번호" ∨ c = "연번" ∨ c = "번호") then 2 else 0) +
  (if r.any (fun c =>
      c = "품명" ∨ c = "내용" ∨ c = "품목" ∨ c = "품목명" ∨ c = "항목" ∨ c = "적요")
    then 2 else 0) +
  (if r.any (fun c => c = "수량") then 1 else 0)

/-- Models the legacy findHeaderRow. -/
def findHeaderRow (rows : List (List String)) : Option Nat :=
  Page.bestScoreRow headerScore rows

/-- One row of the legacy insert payload. -/
structure LegacyItem where
  item_name : String
  qty : ℚ
  unit_price : Option ℚ
  amount : Option ℚ
  used_at : Option String
  evidence_no : Option ℚ
deriving DecidableEq, Repr

/-- Models importExcelToItems up to the database insert: none models every
error return (header not found, item-name or quantity column missing, no
payload row, duplicate evidence numbers in the workbook). -/
def importExcelToItems (rows : List (List String)) : Option (List LegacyItem) :=
  match findHeaderRow rows with
  | none => none
  | some h =>
    let header := (rows.getD h []).map Page.norm
    let cNo := Page.colIndex header ["no", "증빙번호", "연번"]
    let cName := Page.colIndex header ["품명", "내용", "품목", "품목명", "항목", "적요"]
    let cQty := Page.colIndex header ["수량"]
    let cUnit := Page.colIndex header ["단가"]
    let cAmt := Page.colIndex header ["금액", "사용금액", "합계"]
    let cDate := Page.colIndex header ["일자", "사용일", "사용일자", "발행일자"]
    if cName = none ∨ cQty = none then none
    else
      let body := rows.drop (h + 1)
      let payload := body.filterMap (fun r =>
        let item_name := jsTrim (Page.cellAt r cName)
        if item_name = "" then (none : Option LegacyItem)
        else
          some { item_name := item_name,
                 qty := (toNumberOrNull (Page.cellAt r cQty)).getD 0,
                 unit_price := match cUnit with
                   | none => none
                   | some i => toNumberOrNull (r.getD i ""),
                 amount := match cAmt with
                   | none => none
                   | some i => toNumberOrNull (r.getD i ""),
                 used_at := match cDate with
                   | none => none
                   | some i => toDateOrNull (r.getD i ""),
                 evidence_no := match cNo with
                   | none => none
                   | some i => toNumberOrNull (r.getD i "") })
      if payload.isEmpty then none
      else
        let noList : List ℚ := payload.filterMap (fun x => x.evidence_no)
        if noList.Nodup then some payload else none

end LegacyPage

namespace ImportLib

/-!
Embedding of the text branch of toISODate from the alternative upsert-based
importer importExcelExpenseItems kept alongside the photo components.  The
spreadsheet-serial branch is outside the text-cell model; the same two
anchored date regexes as in the page pipeline are reused.
-/

/-- Models the text branch of toISODate: the same two accepted date shapes
as toDateForDb, but any other text yields null instead of passing through. -/
def toISODate (v : String) : Option String :=
  let s := jsTrim v
  if s = "" then none
  else
    match matchDotYY s with
    | some (yy, mm, dd) =>
      let yyyy := if 70 ≤ digitsToNat yy then 1900 + digitsToNat yy else 2000 + digitsToNat yy
      some (toString yyyy ++ "-" ++ pad2 (toString (digitsToNat mm)) ++ "-" ++
        pad2 (toString (digitsToNat dd)))
    | none =>
      match matchSepYYYY s with
      | some (y, mm, dd) =>
        some (y ++ "-" ++ pad2 (toString (digitsToNat mm)) ++ "-" ++
          pad2 (toString (digitsToNat dd)))
      | none => none

end ImportLib

namespace ExportRoute

/-!
Embedding of the export route src/app/expense/export/route.ts: bucket
fallback on photo fetch, the fixed cell-range layouts, the photo placement
loop, the items-sheet injection keyed by the static category start rows, and
the per-item photo-sheet cloning.  Storage and database reads are an oracle
environment; an image is an abstract number.
-/

/-- Photo kinds stored for an item. -/
inductive PKind | inbound | install
deriving DecidableEq, Repr

/-- A photo row as selected from the photo table. -/
structure PhotoRow where
  kind : PKind
  slot_index : Nat
  storage_path : String
deriving DecidableEq, Repr

/-- Image format inferred from the storage path. -/
inductive ImgExt | png | jpeg
deriving DecidableEq, Repr

/-- Oracle environment for the export: a storage fetch (none models a
signed-url or download failure), the ordered photo rows of each item id,
whether the named photo-template worksheet exists in the template workbook,
and the worksheet names of the template workbook. -/
structure ExportEnv where
  fetch : String → String → Option Nat
  photos : String → List PhotoRow
  hasPhotoTemplate : Bool
  templateSheetNames : List String

/-- Primary storage bucket name. -/
def BUCKET : String := "expense-evidence"

/-- Fallback storage bucket name. -/
def BUCKET_FALLBACK : String := "expense-photos"

/-- Image format from the lowered storage path: png for a png suffix,
jpeg for jpg, jpeg and every other suffix. -/
def extOf (p : String) : ImgExt :=
  if jsEndsWith (jsToLower p) ".png" then ImgExt.png else ImgExt.jpeg

/-- Models fetchImageBufferFromBucket: signed-url issuance plus download
from one bucket, with the format inferred from the path. -/
def fetchImageBufferFromBucket (env : ExportEnv) (bucket storagePath : String) :
    Option (Nat × ImgExt) :=
  (env.fetch bucket storagePath).map (fun b => (b, extOf storagePath))

/-- Models fetchImageBuffer: try the primary bucket and, on any failure,
retry exactly once against the fallback bucket. -/
def fetchImageBuffer (env : ExportEnv) (storagePath : String) : Option (Nat × ImgExt) :=
  match fetchImageBufferFromBucket env BUCKET storagePath with
  | some r => some r
  | none => fetchImageBufferFromBucket env BUCKET_FALLBACK storagePath

/-- Models getInboundRanges: the fixed cell-range layout for the inbound
block by photo count. -/
def getInboundRanges (count : Nat) : List String :=
  if count ≤ 1 then ["B6:E15"]
  else if count = 2 then ["B6:C15", "D6:E15"]
  else if count = 3 then ["B6:E10", "B11:C15", "D11:E15"]
  else ["B6:C10", "D6:E10", "B11:C15", "D11:E15"]

/-- Models getInstallRanges: the fixed cell-range layout for the install
block by photo count. -/
def getInstallRanges (count : Nat) : List String :=
  if count ≤ 1 then ["F6:I15"]
  else if count = 2 then ["F6:G15", "H6:I15"]
  else if count = 3 then ["F6:I10", "F11:G15", "H11:I15"]
  else ["F6:G10", "H6:I10", "F11:G15", "H11:I15"]

/-- Sequential fetch-and-place loop over paired photos and ranges; the
first failed fetch aborts with the download-failure error. -/
def applyGo (env : ExportEnv) :
    List (PhotoRow × String) → Except String (List (String × Nat × ImgExt))
  | [] => Except.ok []
  | (ph, range) :: rest =>
    match fetchImageBuffer env ph.storage_path with
    | none => Except.error "이미지 다운로드 실패"
    | some (b, e) =>
      match applyGo env rest with
      | Except.error msg => Except.error msg
      | Except.ok xs => Except.ok ((range, b, e) :: xs)

/-- Models applyPhotosToRanges: place the photos limited to the number of
available ranges, fetching each in order. -/
def applyPhotosToRanges (env : ExportEnv) (ranges : List String) (photos : List PhotoRow) :
    Except String (List (String × Nat × ImgExt)) :=
  applyGo env ((photos.take ranges.length).zip ranges)

/-- An item row as selected by the export from the item table. -/
structure ExportItem where
  id : String
  evidence_no : Option Nat
  category_no : Option Int
  used_at : Option String
  item_name : String
  qty : Option ℚ
  unit_price : Option ℚ
  amount : Option ℚ
deriving DecidableEq, Repr

/-- Category number of an item, a missing value coercing to 0. -/
def itemCat (it : ExportItem) : Int := it.category_no.getD 0

/-- Models the static start-row lookup of the items sheet. -/
def rowStartMap (c : Int) : Option Nat :=
  if c = 2 then some 8 else if c = 3 then some 20 else if c = 9 then some 60 else none

/-- Rows numbered consecutively from a start row. -/
def enumFrom : Nat → List ExportItem → List (Nat × ExportItem)
  | _, [] => []
  | r, it :: rest => (r, it) :: enumFrom (r + 1) rest

/-- Cell writes of one category group: items of the category, in selection
order, written from the start row of the category; a category with no start row
is skipped. -/
def writesFor (items : List ExportItem) (c : Int) : List (Nat × ExportItem) :=
  match rowStartMap c with
  | none => []
  | some s => enumFrom s (items.filter (fun it => itemCat it == c))

/-- Ascending insertion used to model the ascending JavaScript enumeration of
integer-like object keys. -/
def insertAsc (x : Int) : List Int → List Int
  | [] => [x]
  | y :: t => if x ≤ y then x :: y :: t else y :: insertAsc x t

/-- Ascending sort of the distinct category numbers. -/
def sortAsc (l : List Int) : List Int := l.foldr insertAsc []

/-- Models the items-sheet injection loop: group the items by category
number and write each group from its static start row; groups without a
start row are skipped entirely. -/
def sheetWrites (items : List ExportItem) : List (Nat × ExportItem) :=
  (sortAsc ((items.map itemCat).dedup)).foldl (fun acc c => acc ++ writesFor items c) []

/-- One cloned photo sheet of the output workbook: its final name and its
placed images. -/
structure PhotoSheet where
  name : String
  images : List (String × Nat × ImgExt)
deriving DecidableEq, Repr

/-- Base sheet name for an item: NO. followed by the evidence number, with
a missing or zero (falsy) number replaced by the undecided marker. -/
def sheetBaseName (it : ExportItem) : String :=
  match it.evidence_no with
  | some n => if n = 0 then "NO.미정" else "NO." ++ toString n
  | none => "NO.미정"

/-- The photos of an item that the export actually fetches: the list of each kind limited to the number of ranges of its layout. -/
def fetchedPhotos (env : ExportEnv) (it : ExportItem) : List PhotoRow :=
  let list := env.photos it.id
  let inboundPhotos := list.filter (fun p => p.kind == PKind.inbound)
  let installPhotos := list.filter (fun p => p.kind == PKind.install)
  inboundPhotos.take (getInboundRanges (min inboundPhotos.length 4)).length ++
    installPhotos.take (getInstallRanges (min installPhotos.length 4)).length

/-- Per-item photo-sheet loop: clone a sheet under a collision-free name,
then place the inbound and install photos; any fetch failure aborts the
whole loop. -/
def buildSheets (env : ExportEnv) :
    List ExportItem → List String → Except String (List PhotoSheet)
  | [], _ => Except.ok []
  | it :: rest, used =>
    let base := sheetBaseName it
    let finalName := if base ∈ used then base ++ "_" ++ it.id.take 6 else base
    let list := env.photos it.id
    let inboundPhotos := list.filter (fun p => p.kind == PKind.inbound)
    let installPhotos := list.filter (fun p => p.kind == PKind.install)
    match applyPhotosToRanges env (getInboundRanges (min inboundPhotos.length 4))
        inboundPhotos with
    | Except.error e => Except.error e
    | Except.ok p1 =>
      match applyPhotosToRanges env (getInstallRanges (min installPhotos.length 4))
          installPhotos with
      | Except.error e => Except.error e
      | Except.ok p2 =>
        match buildSheets env rest (finalName :: used) with
        | Except.error e => Except.error e
        | Except.ok restSheets =>
          Except.ok ({ name := finalName, images := p1 ++ p2 } :: restSheets)

/-- The export output: the cell writes of the items sheet and the cloned
photo sheets. -/
structure ExportOut where
  writes : List (Nat × ExportItem)
  sheets : List PhotoSheet
deriving DecidableEq, Repr

/-- Models the GET handler after the document and item reads: inject the
items sheet, require the photo-template sheet, and clone one photo sheet
per item; any photo failure or a missing template sheet is a hard error and
no workbook value is produced. -/
def GET (env : ExportEnv) (items : List ExportItem) : Except String ExportOut :=
  if env.hasPhotoTemplate then
    match buildSheets env items env.templateSheetNames with
    | Except.error e => Except.error e
    | Except.ok sheets => Except.ok { writes := sheetWrites items, sheets := sheets }
  else Except.error "사진대지 시트를 찾을 수 없습니다"

end ExportRoute

namespace UploadRoute

/-!
Embedding of the photo upload POST handlers of
src/app/api/photos/upload/route.ts: the validation of the active handler and
storage-path construction, and the validation segment of the superseded
handler kept in the same file group (which still rejected inbound uploads
outside slot 0).  Storage and database writes are external effects beyond
the validation boundary.
-/

/-- Photo kinds accepted by the active handler. -/
inductive Kind | inbound | install
deriving DecidableEq, Repr

/-- Models parseKind. -/
def parseKind (v : String) : Option Kind :=
  if v = "inbound" then some Kind.inbound
  else if v = "install" then some Kind.install
  else none

/-- Path segment of a kind. -/
def kindStr : Kind → String
  | Kind.inbound => "inbound"
  | Kind.install => "install"

/-- Models the content-type based extension choice. -/
def extFor (contentType : String) : String :=
  if strContains contentType "png" then "png"
  else if strContains contentType "jpeg" then "jpg"
  else if strContains contentType "webp" then "webp"
  else "bin"

/-- The form fields of an upload request; file presence, size and declared
content type stand in for the uploaded blob. -/
structure UploadReq where
  docId : String
  itemId : String
  kindRaw : String
  slotIndexRaw : String
  hasFile : Bool
  fileBytes : Nat
  contentType : String
deriving Repr

/-- A request accepted by the active handler: the parsed kind, the coerced
slot index and the storage path the photo is written to. -/
structure UploadOk where
  kind : Kind
  slotIndex : ℚ
  storagePath : String
deriving DecidableEq, Repr

/-- Maximal accepted file size in bytes. -/
def MAX_BYTES : Nat := 10 * 1024 * 1024

/-- Models the validation and path construction of the active POST handler:
every rejected request maps to its 400 message, every accepted request to
the slot-keyed storage path.  The slot rule enforces only the 0 to 3 range,
for the inbound and the install kind alike. -/
def POST (r : UploadReq) : Except String UploadOk :=
  let docId := jsTrim r.docId
  let itemId := jsTrim r.itemId
  let kindRaw := jsTrim r.kindRaw
  let slotIndexRaw := jsTrim r.slotIndexRaw
  if docId = "" then Except.error "docId 누락"
  else if itemId = "" then Except.error "itemId 누락"
  else
    match parseKind kindRaw with
    | none => Except.error "kind 값 오류"
    | some kind =>
      if slotIndexRaw = "" then Except.error "slotIndex 누락"
      else
        match jsNumber slotIndexRaw with
        | none => Except.error "slotIndex 정수 아님"
        | some slotIndex =>
          if slotIndex.den ≠ 1 then Except.error "slotIndex 정수 아님"
          else if ¬ r.hasFile then Except.error "file 누락"
          else if slotIndex < 0 ∨ 3 < slotIndex then Except.error "slotIndex는 0~3만 허용"
          else if MAX_BYTES < r.fileBytes then Except.error "파일 용량 초과"
          else
            let contentType :=
              if r.contentType = "" then "application/octet-stream" else r.contentType
            Except.ok
              { kind := kind, slotIndex := slotIndex,
                storagePath := "docs/" ++ docId ++ "/items/" ++ itemId ++ "/" ++
                  kindStr kind ++ "/slot-" ++ ratKeyStr slotIndex ++ "." ++
                  extFor contentType }

/-- Models the validation segment of the superseded POST handler (kind
inbound or issue_install, finite slot in range 0 to 3, and inbound pinned
to slot 0); the accepted value is the kind text with the coerced slot. -/
def legacyUploadValidate (expenseItemId kindRaw slotRaw : String) (hasFile : Bool)
    (fileType : String) : Except String (String × ℚ) :=
  if expenseItemId = "" ∨ kindRaw = "" ∨ slotRaw = "" ∨ ¬ hasFile then
    Except.error "필수값 누락"
  else if ¬ (kindRaw = "inbound" ∨ kindRaw = "issue_install") then
    Except.error "kind 오류"
  else
    match jsNumber slotRaw with
    | none => Except.error "slot 범위 오류"
    | some slot =>
      if slot < 0 ∨ 3 < slot then Except.error "slot 범위 오류"
      else if kindRaw = "inbound" ∧ slot ≠ 0 then Except.error "반입은 slot=0만 허용"
      else if ¬ (jsStartsWith fileType "image/") then Except.error "이미지 파일만 허용"
      else Except.ok (kindRaw, slot)

end UploadRoute

/-!
Concrete inputs used as counterexamples and witnesses, together with the
preview lists the parser produces on them.
-/

/-- Workbook grid with two category blocks of one detail row each. -/
def exGridTwoCats : List (List String) :=
  [["항목", "사용일자", "사용내역", "수량"],
   ["가", "", "물품가", "1"],
   ["나", "", "물품나", "1"]]

/-- Parse result of the two-block grid. -/
def exPvTwoCats : List Page.ExcelPreviewRow :=
  [⟨"가", none, "물품가", 1, true, some 1, none, none⟩,
   ⟨"나", none, "물품나", 1, true, some 2, none, none⟩]

/-- Workbook grid with a single ordinary detail row. -/
def exGridOneItem : List (List String) :=
  [["항목", "사용일자", "사용내역", "수량"], ["가", "", "장갑", "2"]]

/-- Parse result of the single-row grid. -/
def exPvOneItem : List Page.ExcelPreviewRow :=
  [⟨"가", none, "장갑", 2, true, some 1, none, none⟩]

/-- The database row committed from the single-row grid. -/
def exDbRowOneItem : Page.DbItem := ⟨some 1, "장갑", 2, none, none, none⟩

/-- Workbook grid whose only detail row has the quantity cell 0. -/
def exGridQtyZero : List (List String) :=
  [["항목", "사용일자", "사용내역", "수량"], ["가", "", "장갑", "0"]]

/-- Parse result of the zero-quantity grid. -/
def exPvQtyZero : List Page.ExcelPreviewRow :=
  [⟨"가", none, "장갑", 0, true, some 1, none, none⟩]

/-- Workbook grid whose only body row carries the grand-total token in the
item-name cell. -/
def exGridChonggye : List (List String) :=
  [["항목", "사용일자", "사용내역", "수량"], ["가", "25.12.22", "총계", "3"]]

/-- Workbook grid whose header has no quantity column at all. -/
def exGridNoQty : List (List String) :=
  [["항목", "사용일자", "사용내역"], ["카", "", "장갑"]]

/-- Parse result of the grid without a quantity column. -/
def exPvNoQty : List Page.ExcelPreviewRow :=
  [⟨"카", none, "장갑", 0, true, some 1, none, none⟩]

/-- Evidence numbers of the accepted detail rows of one category block, in
order. -/
def perCategoryEvidence (pv : List Page.ExcelPreviewRow) (c : String) :
    List (Option Nat) :=
  (pv.filter (fun p => p.isDetail && decide (p.category = c))).map
    (fun p => p.evidence_no)

/-- Export environment whose every storage fetch fails, with one install
photo on every item. -/
def envAllFail : ExportRoute.ExportEnv :=
  ⟨fun _ _ => none, fun _ => [⟨ExportRoute.PKind.install, 0, "a.png"⟩], true,
    ["항목별사용내역서", "2.안전시설물 사진대지"]⟩

/-- Export environment whose every storage fetch succeeds and whose items
have no photos. -/
def envAllOk : ExportRoute.ExportEnv :=
  ⟨fun _ _ => some 7, fun _ => [], true,
    ["항목별사용내역서", "2.안전시설물 사진대지"]⟩

/-- An ordinary item of category 2. -/
def itemPlain : ExportRoute.ExportItem :=
  ⟨"item-1", some 1, some 2, none, "장갑", some 1, none, none⟩

/-- An item whose category number 5 has no start row in the lookup. -/
def itemBadCat : ExportRoute.ExportItem :=
  ⟨"item-2", some 2, some 5, none, "표지판", some 1, none, none⟩

/-- Five install photos for one item. -/
def photosFive : List ExportRoute.PhotoRow :=
  [⟨ExportRoute.PKind.install, 0, "p0.png"⟩, ⟨ExportRoute.PKind.install, 1, "p1.png"⟩,
   ⟨ExportRoute.PKind.install, 2, "p2.png"⟩, ⟨ExportRoute.PKind.install, 3, "p3.png"⟩,
   ⟨ExportRoute.PKind.install, 4, "p4.png"⟩]

/-- Five inbound photos for one item. -/
def photosFiveInbound : List ExportRoute.PhotoRow :=
  [⟨ExportRoute.PKind.inbound, 0, "q0.png"⟩, ⟨ExportRoute.PKind.inbound, 1, "q1.png"⟩,
   ⟨ExportRoute.PKind.inbound, 2, "q2.png"⟩, ⟨ExportRoute.PKind.inbound, 3, "q3.png"⟩,
   ⟨ExportRoute.PKind.inbound, 4, "q4.png"⟩]

/-- An upload request with kind inbound and slot index 2. -/
def reqInboundSlot2 : UploadRoute.UploadReq :=
  ⟨"d", "i", "inbound", "2", true, 4, "image/png"⟩

/-- The accepted value the active handler produces for that request. -/
def okInboundSlot2 : UploadRoute.UploadOk :=
  ⟨UploadRoute.Kind.inbound, 2, "docs/d/items/i/inbound/slot-2.png"⟩

/-!
Lemmas about the commit loop of saveExcelPreviewToDb.
-/

/-- The accumulator of the dedup loop is carried through unchanged and the
queued rows are appended to it. -/
theorem dedupLoop_acc (ps : List Page.ExcelPreviewRow) :
    ∀ (keys : List String) (acc : List Page.ExcelPreviewRow),
      Page.dedupLoop keys acc ps =
        ((Page.dedupLoop keys [] ps).1, acc ++ (Page.dedupLoop keys [] ps).2) := by
  induction ps with
  | nil => intro keys acc; simp [Page.dedupLoop]
  | cons p rest ih =>
    intro keys acc
    by_cases h : Page.previewKey p ∈ keys
    · simp only [Page.dedupLoop, if_pos h]
      exact ih keys acc
    · simp only [Page.dedupLoop, if_neg h, List.nil_append]
      rw [ih (Page.previewKey p :: keys) (acc ++ [p]),
        ih (Page.previewKey p :: keys) [p]]
      simp

/-- Every starting accumulator row stays in the queued output. -/
theorem dedupLoop_acc_sub (ps : List Page.ExcelPreviewRow) :
    ∀ (keys : List String) (acc : List Page.ExcelPreviewRow),
      acc ⊆ (Page.dedupLoop keys acc ps).2 := by
  induction ps with
  | nil => intro keys acc; simp [Page.dedupLoop]
  | cons p rest ih =>
    intro keys acc
    by_cases h : Page.previewKey p ∈ keys
    · simp only [Page.dedupLoop, if_pos h]
      exact ih keys acc
    · simp only [Page.dedupLoop, if_neg h]
      intro x hx
      exact ih (Page.previewKey p :: keys) (acc ++ [p]) (List.mem_append_left _ hx)

/-- The key of every processed row ends up either among the starting keys
or among the keys of the queued rows. -/
theorem dedupLoop_covers (ps : List Page.ExcelPreviewRow) :
    ∀ (keys : List String) (acc p : _), p ∈ ps →
      Page.previewKey p ∈ keys ∨
        Page.previewKey p ∈ (Page.dedupLoop keys acc ps).2.map Page.previewKey := by
  induction ps with
  | nil => intro keys acc p hp; cases hp
  | cons q rest ih =>
    intro keys acc p hp
    by_cases h : Page.previewKey q ∈ keys
    · rcases List.mem_cons.mp hp with rfl | hp'
      · exact Or.inl h
      · simpa only [Page.dedupLoop, if_pos h] using ih keys acc p hp'
    · simp only [Page.dedupLoop, if_neg h]
      rcases List.mem_cons.mp hp with rfl | hp'
      · right
        refine List.mem_map.mpr ⟨p, ?_, rfl⟩
        exact dedupLoop_acc_sub rest _ _ (List.mem_append_right _ (List.mem_singleton.mpr rfl))
      · rcases ih (Page.previewKey q :: keys) (acc ++ [q]) p hp' with hk | hm
        · rcases List.mem_cons.mp hk with heq | hk'
          · right
            refine List.mem_map.mpr ⟨q, ?_, heq.symm⟩
            exact dedupLoop_acc_sub rest _ _
              (List.mem_append_right _ (List.mem_singleton.mpr rfl))
          · exact Or.inl hk'
        · exact Or.inr hm

/-- When every processed key is already known, the dedup loop queues
nothing. -/
theorem dedupLoop_skip_all (ps : List Page.ExcelPreviewRow) :
    ∀ (keys : List String) (acc : List Page.ExcelPreviewRow),
      (∀ p ∈ ps, Page.previewKey p ∈ keys) →
      Page.dedupLoop keys acc ps = (keys, acc) := by
  induction ps with
  | nil => intro keys acc _; rfl
  | cons p rest ih =>
    intro keys acc hall
    have hp : Page.previewKey p ∈ keys := hall p (List.mem_cons_self p rest)
    simp only [Page.dedupLoop, if_pos hp]
    exact ih keys acc (fun q hq => hall q (List.mem_cons_of_mem p hq))

/-- Every queued row comes from the accumulator or from the processed
list. -/
theorem dedupLoop_snd_mem (ps : List Page.ExcelPreviewRow) :
    ∀ (keys : List String) (acc q : _), q ∈ (Page.dedupLoop keys acc ps).2 →
      q ∈ acc ∨ q ∈ ps := by
  induction ps with
  | nil => intro keys acc q hq; exact Or.inl hq
  | cons p rest ih =>
    intro keys acc q hq
    by_cases h : Page.previewKey p ∈ keys
    · simp only [Page.dedupLoop, if_pos h] at hq
      rcases ih keys acc q hq with h1 | h2
      · exact Or.inl h1
      · exact Or.inr (List.mem_cons_of_mem p h2)
    · simp only [Page.dedupLoop, if_neg h] at hq
      rcases ih (Page.previewKey p :: keys) (acc ++ [p]) q hq with h1 | h2
      · rcases List.mem_append.mp h1 with h3 | h4
        · exact Or.inl h3
        · exact Or.inr (List.mem_cons.mpr (Or.inl (List.mem_singleton.mp h4)))
      · exact Or.inr (List.mem_cons_of_mem p h2)

/-- The content key of an inserted database row is the content key of the
preview row it was built from. -/
theorem dbKey_mkDbRow (n : Nat) (p : Page.ExcelPreviewRow) :
    Page.dbKey (Page.mkDbRow n p) = Page.previewKey p := rfl

/-- The content keys of a numbered insert payload are the keys of the
queued rows. -/
theorem insertNumbered_map_dbKey (ps : List Page.ExcelPreviewRow) :
    ∀ n, (Page.insertNumbered n ps).map Page.dbKey = ps.map Page.previewKey := by
  induction ps with
  | nil => intro n; rfl
  | cons p rest ih =>
    intro n
    simp only [Page.insertNumbered, List.map_cons, dbKey_mkDbRow, ih (n + 1)]

/-- Every row of a numbered insert payload is built from some queued row. -/
theorem insertNumbered_mem (ps : List Page.ExcelPreviewRow) :
    ∀ (n : Nat) (r : Page.DbItem), r ∈ Page.insertNumbered n ps →
      ∃ p ∈ ps, ∃ m, r = Page.mkDbRow m p := by
  induction ps with
  | nil => intro n r hr; cases hr
  | cons p rest ih =>
    intro n r hr
    rcases List.mem_cons.mp hr with rfl | hr'
    · exact ⟨p, List.mem_cons_self p rest, n, rfl⟩
    · rcases ih (n + 1) r hr' with ⟨q, hq, m, hm⟩
      exact ⟨q, List.mem_cons_of_mem p hq, m, hm⟩

/-- A commit whose every preview detail key is already present in the
database leaves the database unchanged. -/
theorem save_no_new (db : List Page.DbItem) (pv : List Page.ExcelPreviewRow)
    (h : ∀ p ∈ pv.filter (fun p => p.isDetail),
      Page.previewKey p ∈ db.map Page.dbKey) :
    Page.saveExcelPreviewToDb db pv = db := by
  by_cases h1 : pv.isEmpty
  · simp [Page.saveExcelPreviewToDb, h1]
  · by_cases h2 : (pv.filter (fun p => p.isDetail)).isEmpty
    · simp [Page.saveExcelPreviewToDb, h1, h2]
    · have hskip := dedupLoop_skip_all (pv.filter (fun p => p.isDetail))
        (db.map Page.dbKey) [] h
      simp [Page.saveExcelPreviewToDb, h1, h2, hskip]

/-- Committing the same preview twice is the same as committing it once:
the second commit finds every content key already present and inserts
nothing. -/
theorem save_idem (db : List Page.DbItem) (pv : List Page.ExcelPreviewRow) :
    Page.saveExcelPreviewToDb (Page.saveExcelPreviewToDb db pv) pv =
      Page.saveExcelPreviewToDb db pv := by
  by_cases h1 : pv.isEmpty
  · simp [Page.saveExcelPreviewToDb, h1]
  · by_cases h2 : (pv.filter (fun p => p.isDetail)).isEmpty
    · simp [Page.saveExcelPreviewToDb, h1, h2]
    · by_cases h3 : (Page.dedupLoop (db.map Page.dbKey) []
          (pv.filter (fun p => p.isDetail))).2.isEmpty
      · have hdb : Page.saveExcelPreviewToDb db pv = db := by
          simp [Page.saveExcelPreviewToDb, h1, h2, h3]
        rw [hdb]
        refine save_no_new db pv (fun p hp => ?_)
        rcases dedupLoop_covers (pv.filter (fun p => p.isDetail))
            (db.map Page.dbKey) [] p hp with hk | hm
        · exact hk
        · rw [List.isEmpty_iff.mp h3] at hm
          cases hm
      · have hdb1 : Page.saveExcelPreviewToDb db pv =
            db ++ Page.insertNumbered
              ((db.foldl (fun m r => max m (r.evidence_no.getD 0)) 0) + 1)
              (Page.dedupLoop (db.map Page.dbKey) []
                (pv.filter (fun p => p.isDetail))).2 := by
          simp [Page.saveExcelPreviewToDb, h1, h2, h3]
        rw [hdb1]
        refine save_no_new _ pv (fun p hp => ?_)
        rw [List.map_append, insertNumbered_map_dbKey]
        rcases dedupLoop_covers (pv.filter (fun p => p.isDetail))
            (db.map Page.dbKey) [] p hp with hk | hm
        · exact List.mem_append_left _ hk
        · exact List.mem_append_right _ hm

/-!
Lemmas about the parse phase.
-/

/-- Every row the body loop pushes has its detail flag computed from its
item name. -/
theorem previewLoop_isDetail (cH cD cN cQ cU cA : Option Nat) :
    ∀ (rows : List (List String)) (lc : String) (p : Page.ExcelPreviewRow),
      p ∈ Page.previewLoop cH cD cN cQ cU cA lc rows →
      p.isDetail = (decide (p.item_name ≠ "") && !(Page.isGye p.item_name)) := by
  intro rows
  induction rows with
  | nil => intro lc p hp; cases hp
  | cons r rest ih =>
    intro lc p hp
    simp only [Page.previewLoop] at hp
    split_ifs at hp
    all_goals try exact ih _ p hp
    all_goals rcases List.mem_cons.mp hp with rfl | hp2
    all_goals try rfl
    all_goals exact ih _ p hp2

/-- Fuel-indexed membership lemma for the collapse loop: every output row
keeps the item name, detail flag and quantity of some input row. -/
theorem collapseRowsGo_mem (n : Nat) :
    ∀ (l : List Page.ExcelPreviewRow),
      ∀ p ∈ Page.collapseRowsGo n l,
        ∃ q ∈ l, p.item_name = q.item_name ∧ p.isDetail = q.isDetail ∧
          p.qty = q.qty := by
  induction n with
  | zero =>
    intro l p hp
    cases l with
    | nil => cases hp
    | cons row rest => exact ⟨p, hp, rfl, rfl, rfl⟩
  | succ n ih =>
    intro l p hp
    cases l with
    | nil => cases hp
    | cons row rest =>
      by_cases hc : Page.collapseCond row = true
      · simp only [Page.collapseRowsGo, if_pos hc] at hp
        rcases List.mem_cons.mp hp with rfl | hp2
        · exact ⟨row, List.mem_cons_self row rest, rfl, rfl, rfl⟩
        · obtain ⟨q, hq, hprops⟩ := ih _ p hp2
          exact ⟨q, List.mem_cons_of_mem row (List.drop_subset _ rest hq), hprops⟩
      · simp only [Page.collapseRowsGo, if_neg hc] at hp
        rcases List.mem_cons.mp hp with rfl | hp2
        · exact ⟨p, List.mem_cons_self p rest, rfl, rfl, rfl⟩
        · obtain ⟨q, hq, hprops⟩ := ih rest p hp2
          exact ⟨q, List.mem_cons_of_mem row hq, hprops⟩

/-- Every output row of the collapse loop keeps the item name, detail flag
and quantity of some input row. -/
theorem collapseRows_mem (l : List Page.ExcelPreviewRow) (p : Page.ExcelPreviewRow)
    (hp : p ∈ Page.collapseRows l) :
    ∃ q ∈ l, p.item_name = q.item_name ∧ p.isDetail = q.isDetail ∧ p.qty = q.qty :=
  collapseRowsGo_mem l.length l p hp

/-- Every output row of the numbering loop keeps the item name, detail flag
and quantity of some input row. -/
theorem assignEvidenceLoop_mem :
    ∀ (l : List Page.ExcelPreviewRow) (n : Nat) (p : Page.ExcelPreviewRow),
      p ∈ Page.assignEvidenceLoop n l →
      ∃ q ∈ l, p.item_name = q.item_name ∧ p.isDetail = q.isDetail ∧ p.qty = q.qty := by
  intro l
  induction l with
  | nil => intro n p hp; cases hp
  | cons q rest ih =>
    intro n p hp
    by_cases hd : q.isDetail
    · simp only [Page.assignEvidenceLoop, if_pos hd] at hp
      rcases List.mem_cons.mp hp with rfl | hp2
      · exact ⟨q, List.mem_cons_self q rest, rfl, rfl, rfl⟩
      · obtain ⟨q2, hq2, hprops⟩ := ih (n + 1) p hp2
        exact ⟨q2, List.mem_cons_of_mem q hq2, hprops⟩
    · simp only [Page.assignEvidenceLoop, if_neg hd] at hp
      rcases List.mem_cons.mp hp with rfl | hp2
      · exact ⟨p, List.mem_cons_self p rest, rfl, rfl, rfl⟩
      · obtain ⟨q2, hq2, hprops⟩ := ih n p hp2
        exact ⟨q2, List.mem_cons_of_mem q hq2, hprops⟩

/-- The evidence numbers of the detail rows after the numbering loop are
the consecutive numbers from the start value, one per detail row. -/
theorem assignEvidenceLoop_detail_map :
    ∀ (l : List Page.ExcelPreviewRow) (n : Nat),
      ((Page.assignEvidenceLoop n l).filter (fun p => p.isDetail)).map
          (fun p => p.evidence_no) =
        (List.range' n (l.countP (fun p => p.isDetail))).map some := by
  intro l
  induction l with
  | nil => intro n; simp [Page.assignEvidenceLoop]
  | cons p rest ih =>
    intro n
    by_cases hd : p.isDetail
    · have hd2 : ({ p with evidence_no := some n } : Page.ExcelPreviewRow).isDetail =
        true := hd
      simp [Page.assignEvidenceLoop, hd, hd2, List.countP_cons, ih (n + 1),
        List.range'_succ]
    · simp [Page.assignEvidenceLoop, hd, List.countP_cons, ih n]

/-- Shape of every successful parse: a header row was found, at least one
of the item-description and category columns was mapped, and the preview
is the numbered, filtered collapse of the body loop. -/
theorem parseExcelForPreview_eq (rows : List (List String))
    (pv : List Page.ExcelPreviewRow)
    (h : Page.parseExcelForPreview rows = some pv) :
    ∃ hi, Page.findHeaderRow rows = some hi ∧
      ¬ (Page.colIndex ((rows.getD hi []).map Page.norm)
            ["사용내역", "품명", "내용", "적요", "품목", "품목명"] = none ∧
          Page.colIndex ((rows.getD hi []).map Page.norm) ["항목", "구분", "대분류"] = none) ∧
      pv = Page.assignEvidenceLoop 1
        ((Page.collapseRows (Page.previewLoop
          (Page.colIndex ((rows.getD hi []).map Page.norm) ["항목", "구분", "대분류"])
          (Page.colIndex ((rows.getD hi []).map Page.norm)
            ["사용일자", "일자", "사용일", "발행일자"])
          (Page.colIndex ((rows.getD hi []).map Page.norm)
            ["사용내역", "품명", "내용", "적요", "품목", "품목명"])
          (Page.colIndex ((rows.getD hi []).map Page.norm) ["수량"])
          (Page.colIndex ((rows.getD hi []).map Page.norm) ["단가"])
          (Page.colIndex ((rows.getD hi []).map Page.norm) ["금액", "사용금액", "합계"])
          "" (rows.drop (hi + 1)))).filter Page.hasData) := by
  unfold Page.parseExcelForPreview at h
  cases hfh : Page.findHeaderRow rows with
  | none => rw [hfh] at h; cases h
  | some hi =>
    rw [hfh] at h
    simp only at h
    split_ifs at h with h1 h2
    exact ⟨hi, rfl, h1, (Option.some.inj h).symm⟩

/-- Every detail row of a successful parse has a non-blank item name that
is not a total token. -/
theorem parse_mem_isDetail (rows : List (List String)) (pv : List Page.ExcelPreviewRow)
    (h : Page.parseExcelForPreview rows = some pv) (p : Page.ExcelPreviewRow)
    (hp : p ∈ pv) (hd : p.isDetail = true) :
    p.item_name ≠ "" ∧ Page.isGye p.item_name = false := by
  obtain ⟨hi, _, _, hpv⟩ := parseExcelForPreview_eq rows pv h
  subst hpv
  obtain ⟨q, hq, hname, hdet, _⟩ := assignEvidenceLoop_mem _ _ p hp
  have hq2 := List.mem_of_mem_filter hq
  obtain ⟨q2, hq3, hname2, hdet2, _⟩ := collapseRows_mem _ q hq2
  have hinv := previewLoop_isDetail _ _ _ _ _ _ _ _ q2 hq3
  rw [hdet, hdet2, hinv] at hd
  have hsplit : q2.item_name ≠ "" ∧ Page.isGye q2.item_name = false := by
    simpa [Bool.and_eq_true, Bool.not_eq_true'] using hd
  refine ⟨?_, ?_⟩
  · rw [hname, hname2]
    exact hsplit.1
  · rw [hname, hname2]
    exact hsplit.2

/-- Every row a commit adds to the database comes from a detail row of the
preview, keeping its item name and quantity. -/
theorem save_new_mem (db : List Page.DbItem) (pv : List Page.ExcelPreviewRow)
    (r : Page.DbItem) (hr : r ∈ Page.saveExcelPreviewToDb db pv) (hnew : r ∉ db) :
    ∃ p ∈ pv, p.isDetail = true ∧ r.item_name = p.item_name ∧ r.qty = p.qty := by
  simp only [Page.saveExcelPreviewToDb] at hr
  split_ifs at hr with h1 h2 h3
  · exact absurd hr hnew
  · exact absurd hr hnew
  · exact absurd hr hnew
  · rcases List.mem_append.mp hr with hin | hin
    · exact absurd hin hnew
    · obtain ⟨p, hp, m, rfl⟩ := insertNumbered_mem _ _ _ hin
      rcases dedupLoop_snd_mem _ _ _ p hp with hacc | hdet
      · cases hacc
      · have hmem := List.mem_of_mem_filter hdet
        have hdtrue : p.isDetail = true := by
          simpa using List.of_mem_filter hdet
        exact ⟨p, hmem, hdtrue, rfl, rfl⟩

/-!
Lemmas about the export route.
-/

/-- The placement loop succeeds and places one image per pair when every
paired fetch succeeds. -/
theorem applyGo_ok (env : ExportRoute.ExportEnv) :
    ∀ (zl : List (ExportRoute.PhotoRow × String)),
      (∀ pr ∈ zl, ExportRoute.fetchImageBuffer env pr.1.storage_path ≠ none) →
      ∃ xs, ExportRoute.applyGo env zl = Except.ok xs ∧ xs.length = zl.length := by
  intro zl
  induction zl with
  | nil => intro _; exact ⟨[], rfl, rfl⟩
  | cons pr rest ih =>
    intro hall
    obtain ⟨ph, range⟩ := pr
    have hne := hall (ph, range) (List.mem_cons_self _ rest)
    cases hfb : ExportRoute.fetchImageBuffer env ph.storage_path with
    | none => exact absurd hfb hne
    | some be =>
      obtain ⟨b, e⟩ := be
      obtain ⟨xs, hxs, hlen⟩ := ih (fun q hq => hall q (List.mem_cons_of_mem _ hq))
      refine ⟨(range, b, e) :: xs, ?_, by simp [hlen]⟩
      simp only [ExportRoute.applyGo, hfb, hxs]

/-- The placement loop fails as soon as some paired fetch fails. -/
theorem applyGo_error (env : ExportRoute.ExportEnv) :
    ∀ (zl : List (ExportRoute.PhotoRow × String)),
      (∃ pr ∈ zl, ExportRoute.fetchImageBuffer env pr.1.storage_path = none) →
      ∃ e, ExportRoute.applyGo env zl = Except.error e := by
  intro zl
  induction zl with
  | nil => intro h; obtain ⟨pr, hpr, _⟩ := h; cases hpr
  | cons pr rest ih =>
    intro h
    obtain ⟨ph, range⟩ := pr
    cases hfb : ExportRoute.fetchImageBuffer env ph.storage_path with
    | none => exact ⟨"이미지 다운로드 실패", by simp only [ExportRoute.applyGo, hfb]⟩
    | some be =>
      obtain ⟨b, e⟩ := be
      obtain ⟨q, hq, hqn⟩ := h
      rcases List.mem_cons.mp hq with rfl | hq2
      · rw [hfb] at hqn; cases hqn
      · obtain ⟨e2, he2⟩ := ih ⟨q, hq2, hqn⟩
        exact ⟨e2, by simp only [ExportRoute.applyGo, hfb, he2]⟩

/-- Photo placement succeeds and places the minimum of the photo count and
the range count when every fetched photo resolves. -/
theorem applyPhotosToRanges_ok (env : ExportRoute.ExportEnv) (ranges : List String)
    (photos : List ExportRoute.PhotoRow)
    (hall : ∀ ph ∈ photos.take ranges.length,
      ExportRoute.fetchImageBuffer env ph.storage_path ≠ none) :
    ∃ xs, ExportRoute.applyPhotosToRanges env ranges photos = Except.ok xs ∧
      xs.length = min photos.length ranges.length := by
  have hlen : (photos.take ranges.length).length ≤ ranges.length := by
    rw [List.length_take]; omega
  obtain ⟨xs, hxs, hxlen⟩ := applyGo_ok env ((photos.take ranges.length).zip ranges)
    (fun pr hpr => by
      have : pr.1 ∈ ((photos.take ranges.length).zip ranges).map Prod.fst :=
        List.mem_map_of_mem Prod.fst hpr
      rw [List.map_fst_zip _ _ hlen] at this
      exact hall pr.1 this)
  refine ⟨xs, hxs, ?_⟩
  rw [hxlen, List.length_zip, List.length_take]
  omega

/-- Photo placement fails when some photo within the placed window fails
both buckets. -/
theorem applyPhotosToRanges_error (env : ExportRoute.ExportEnv) (ranges : List String)
    (photos : List ExportRoute.PhotoRow)
    (hbad : ∃ ph ∈ photos.take ranges.length,
      ExportRoute.fetchImageBuffer env ph.storage_path = none) :
    ∃ e, ExportRoute.applyPhotosToRanges env ranges photos = Except.error e := by
  have hlen : (photos.take ranges.length).length ≤ ranges.length := by
    rw [List.length_take]; omega
  obtain ⟨ph, hph, hnone⟩ := hbad
  have hph2 : ph ∈ ((photos.take ranges.length).zip ranges).map Prod.fst := by
    rw [List.map_fst_zip _ _ hlen]; exact hph
  obtain ⟨pr, hpr, hfst⟩ := List.mem_map.mp hph2
  exact applyGo_error env _ ⟨pr, hpr, by rw [hfst]; exact hnone⟩

/-- Length of the inbound layout: one range for counts up to one, then one
range per photo up to four. -/
theorem getInboundRanges_length (k : Nat) (hk : k ≤ 4) :
    (ExportRoute.getInboundRanges k).length = max k 1 := by
  unfold ExportRoute.getInboundRanges
  split_ifs <;> simp_all <;> omega

/-- Length of the install layout: one range for counts up to one, then one
range per photo up to four. -/
theorem getInstallRanges_length (k : Nat) (hk : k ≤ 4) :
    (ExportRoute.getInstallRanges k).length = max k 1 := by
  unfold ExportRoute.getInstallRanges
  split_ifs <;> simp_all <;> omega

/-- Shared placement result for either layout function: when the first
four photos fetch successfully, placement into the layout chosen for the
capped count succeeds and places exactly the minimum of the photo count
and four images. -/
theorem applyPhotos_min4 (rangesFn : Nat → List String)
    (hlen : ∀ k, k ≤ 4 → (rangesFn k).length = max k 1)
    (env : ExportRoute.ExportEnv) (photos : List ExportRoute.PhotoRow)
    (hall : ∀ ph ∈ photos.take 4,
      ExportRoute.fetchImageBuffer env ph.storage_path ≠ none) :
    ∃ placed, ExportRoute.applyPhotosToRanges env (rangesFn (min photos.length 4))
        photos = Except.ok placed ∧
      placed.length = min photos.length 4 := by
  have hle : ∀ (rl : Nat), rl ≤ 4 →
      ∀ ph ∈ photos.take rl, ExportRoute.fetchImageBuffer env ph.storage_path ≠ none := by
    intro rl hrl ph hph
    apply hall
    have heq : photos.take rl = (photos.take 4).take rl := by
      rw [List.take_take, Nat.min_eq_left hrl]
    rw [heq] at hph
    exact List.take_subset _ _ hph
  have hrlen := hlen (min photos.length 4) (Nat.min_le_right _ _)
  obtain ⟨placed, hpl, hplen⟩ := applyPhotosToRanges_ok env
    (rangesFn (min photos.length 4)) photos
    (by rw [hrlen]; exact hle _ (by omega))
  refine ⟨placed, hpl, ?_⟩
  rw [hplen, hrlen]
  omega

/-- The per-item photo-sheet loop succeeds with one sheet per item when
every fetched photo of every item resolves. -/
theorem buildSheets_ok (env : ExportRoute.ExportEnv) :
    ∀ (items : List ExportRoute.ExportItem) (used : List String),
      (∀ it ∈ items, ∀ ph ∈ ExportRoute.fetchedPhotos env it,
        ExportRoute.fetchImageBuffer env ph.storage_path ≠ none) →
      ∃ sheets, ExportRoute.buildSheets env items used = Except.ok sheets ∧
        sheets.length = items.length := by
  intro items
  induction items with
  | nil => intro used _; exact ⟨[], rfl, rfl⟩
  | cons it rest ih =>
    intro used hall
    have hit := hall it (List.mem_cons_self it rest)
    obtain ⟨p1, hp1, _⟩ := applyPhotosToRanges_ok env
      (ExportRoute.getInboundRanges
        (min ((env.photos it.id).filter
          (fun p => p.kind == ExportRoute.PKind.inbound)).length 4))
      ((env.photos it.id).filter (fun p => p.kind == ExportRoute.PKind.inbound))
      (fun ph hph => hit ph (List.mem_append_left _ hph))
    obtain ⟨p2, hp2, _⟩ := applyPhotosToRanges_ok env
      (ExportRoute.getInstallRanges
        (min ((env.photos it.id).filter
          (fun p => p.kind == ExportRoute.PKind.install)).length 4))
      ((env.photos it.id).filter (fun p => p.kind == ExportRoute.PKind.install))
      (fun ph hph => hit ph (List.mem_append_right _ hph))
    obtain ⟨sheets, hs, hslen⟩ := ih
      ((if ExportRoute.sheetBaseName it ∈ used then
          ExportRoute.sheetBaseName it ++ "_" ++ it.id.take 6
        else ExportRoute.sheetBaseName it) :: used)
      (fun q hq ph hph => hall q (List.mem_cons_of_mem it hq) ph hph)
    refine ⟨{ name := if ExportRoute.sheetBaseName it ∈ used then
          ExportRoute.sheetBaseName it ++ "_" ++ it.id.take 6
        else ExportRoute.sheetBaseName it, images := p1 ++ p2 } :: sheets, ?_, by
      simp [hslen]⟩
    simp only [ExportRoute.buildSheets, hp1, hp2, hs]

/-- The per-item photo-sheet loop fails whenever some item has a fetched
photo that fails both buckets. -/
theorem buildSheets_error (env : ExportRoute.ExportEnv) :
    ∀ (items : List ExportRoute.ExportItem) (used : List String),
      (∃ it ∈ items, ∃ ph ∈ ExportRoute.fetchedPhotos env it,
        ExportRoute.fetchImageBuffer env ph.storage_path = none) →
      ∃ e, ExportRoute.buildSheets env items used = Except.error e := by
  intro items
  induction items with
  | nil => intro used h; obtain ⟨it, hit, _⟩ := h; cases hit
  | cons it0 rest ih =>
    intro used h
    cases hp1 : ExportRoute.applyPhotosToRanges env
        (ExportRoute.getInboundRanges
          (min ((env.photos it0.id).filter
            (fun p => p.kind == ExportRoute.PKind.inbound)).length 4))
        ((env.photos it0.id).filter (fun p => p.kind == ExportRoute.PKind.inbound)) with
    | error e1 => exact ⟨e1, by simp only [ExportRoute.buildSheets, hp1]⟩
    | ok p1 =>
      cases hp2 : ExportRoute.applyPhotosToRanges env
          (ExportRoute.getInstallRanges
            (min ((env.photos it0.id).filter
              (fun p => p.kind == ExportRoute.PKind.install)).length 4))
          ((env.photos it0.id).filter (fun p => p.kind == ExportRoute.PKind.install)) with
      | error e2 => exact ⟨e2, by simp only [ExportRoute.buildSheets, hp1, hp2]⟩
      | ok p2 =>
        obtain ⟨it, hit, ph, hph, hnone⟩ := h
        rcases List.mem_cons.mp hit with rfl | hrest
        · rcases List.mem_append.mp hph with hin | hin
          · obtain ⟨e, he⟩ := applyPhotosToRanges_error env _ _ ⟨ph, hin, hnone⟩
            rw [he] at hp1
            cases hp1
          · obtain ⟨e, he⟩ := applyPhotosToRanges_error env _ _ ⟨ph, hin, hnone⟩
            rw [he] at hp2
            cases hp2
        · obtain ⟨e3, he3⟩ := ih
            ((if ExportRoute.sheetBaseName it0 ∈ used then
                ExportRoute.sheetBaseName it0 ++ "_" ++ it0.id.take 6
              else ExportRoute.sheetBaseName it0) :: used)
            ⟨it, hrest, ph, hph, hnone⟩
          exact ⟨e3, by simp only [ExportRoute.buildSheets, hp1, hp2, he3]⟩

/-- The export never returns a workbook when some fetched photo of some
item fails both buckets. -/
theorem GET_no_ok (env : ExportRoute.ExportEnv) (items : List ExportRoute.ExportItem)
    (h : ∃ it ∈ items, ∃ ph ∈ ExportRoute.fetchedPhotos env it,
      ExportRoute.fetchImageBuffer env ph.storage_path = none)
    (res : ExportRoute.ExportOut) : ExportRoute.GET env items ≠ Except.ok res := by
  intro hok
  unfold ExportRoute.GET at hok
  split_ifs at hok with htpl
  obtain ⟨e, he⟩ := buildSheets_error env items env.templateSheetNames h
  rw [he] at hok
  cases hok

/-- The export succeeds when the template sheet exists and every fetched
photo of every item resolves; the output carries the items-sheet writes and
one cloned photo sheet per item. -/
theorem GET_ok (env : ExportRoute.ExportEnv) (items : List ExportRoute.ExportItem)
    (htpl : env.hasPhotoTemplate = true)
    (hall : ∀ it ∈ items, ∀ ph ∈ ExportRoute.fetchedPhotos env it,
      ExportRoute.fetchImageBuffer env ph.storage_path ≠ none) :
    ∃ out, ExportRoute.GET env items = Except.ok out ∧
      out.writes = ExportRoute.sheetWrites items ∧ out.sheets.length = items.length := by
  obtain ⟨sheets, hs, hslen⟩ := buildSheets_ok env items env.templateSheetNames hall
  exact ⟨{ writes := ExportRoute.sheetWrites items, sheets := sheets },
    by simp only [ExportRoute.GET, htpl, if_true, hs], rfl, hslen⟩

/-- Generic membership split for a fold that appends group lists. -/
theorem foldlAppend_mem {α β : Type} (f : α → List β) :
    ∀ (cats : List α) (acc : List β) (x : β),
      x ∈ cats.foldl (fun a c => a ++ f c) acc → x ∈ acc ∨ ∃ c ∈ cats, x ∈ f c := by
  intro cats
  induction cats with
  | nil => intro acc x hx; exact Or.inl hx
  | cons c0 rest ih =>
    intro acc x hx
    rcases ih (acc ++ f c0) x hx with h1 | ⟨c, hc, hfc⟩
    · rcases List.mem_append.mp h1 with h2 | h3
      · exact Or.inl h2
      · exact Or.inr ⟨c0, List.mem_cons_self c0 rest, h3⟩
    · exact Or.inr ⟨c, List.mem_cons_of_mem c0 hc, hfc⟩

/-- The starting accumulator stays inside an appending fold. -/
theorem foldlAppend_acc_sub {α β : Type} (f : α → List β) :
    ∀ (cats : List α) (acc : List β), acc ⊆ cats.foldl (fun a c => a ++ f c) acc := by
  intro cats
  induction cats with
  | nil => intro acc x hx; exact hx
  | cons c0 rest ih =>
    intro acc x hx
    exact ih (acc ++ f c0) (List.mem_append_left _ hx)

/-- Anything inside a processed group lies inside the appending fold. -/
theorem foldlAppend_mem_of {α β : Type} (f : α → List β) :
    ∀ (cats : List α) (acc : List β) (c : α) (x : β),
      c ∈ cats → x ∈ f c → x ∈ cats.foldl (fun a c => a ++ f c) acc := by
  intro cats
  induction cats with
  | nil => intro acc c x hc _; cases hc
  | cons c0 rest ih =>
    intro acc c x hc hx
    rcases List.mem_cons.mp hc with rfl | hc2
    · exact foldlAppend_acc_sub f rest (acc ++ f c) (List.mem_append_right _ hx)
    · exact ih (acc ++ f c0) c x hc2 hx

/-- Membership through the ascending insertion. -/
theorem mem_insertAsc (x y : Int) : ∀ (l : List Int),
    (x ∈ ExportRoute.insertAsc y l ↔ x = y ∨ x ∈ l) := by
  intro l
  induction l with
  | nil => simp [ExportRoute.insertAsc]
  | cons z t ih =>
    by_cases hle : y ≤ z
    · simp [ExportRoute.insertAsc, hle]
    · simp [ExportRoute.insertAsc, hle, ih]
      tauto

/-- Membership through the ascending sort. -/
theorem mem_sortAsc (x : Int) : ∀ (l : List Int), (x ∈ ExportRoute.sortAsc l ↔ x ∈ l) := by
  intro l
  induction l with
  | nil => simp [ExportRoute.sortAsc]
  | cons z t ih =>
    simp only [ExportRoute.sortAsc, List.foldr_cons]
    rw [show List.foldr ExportRoute.insertAsc [] t = ExportRoute.sortAsc t from rfl]
    rw [mem_insertAsc]
    simp [ih]

/-- The items of the row enumeration are the enumerated list. -/
theorem enumFrom_map_snd : ∀ (s : Nat) (l : List ExportRoute.ExportItem),
    (ExportRoute.enumFrom s l).map Prod.snd = l := by
  intro s l
  induction l generalizing s with
  | nil => rfl
  | cons it rest ih => simp [ExportRoute.enumFrom, ih]

/-- An item of a category without a start row never appears among the
items-sheet writes. -/
theorem sheetWrites_not_mem (items : List ExportRoute.ExportItem)
    (it : ExportRoute.ExportItem)
    (hnone : ExportRoute.rowStartMap (ExportRoute.itemCat it) = none) :
    it ∉ (ExportRoute.sheetWrites items).map Prod.snd := by
  intro hmem
  obtain ⟨pr, hpr, hsnd⟩ := List.mem_map.mp hmem
  rcases foldlAppend_mem _ _ [] pr hpr with h0 | ⟨c, _, hfc⟩
  · cases h0
  · unfold ExportRoute.writesFor at hfc
    cases hrs : ExportRoute.rowStartMap c with
    | none => rw [hrs] at hfc; cases hfc
    | some s =>
      rw [hrs] at hfc
      have hsnd2 : pr.2 ∈ (ExportRoute.enumFrom s
          (items.filter (fun x => ExportRoute.itemCat x == c))).map Prod.snd :=
        List.mem_map_of_mem Prod.snd hfc
      rw [enumFrom_map_snd] at hsnd2
      have hcat := List.of_mem_filter hsnd2
      have hceq : ExportRoute.itemCat pr.2 = c := by simpa using hcat
      rw [← hceq, hsnd] at hrs
      rw [hrs] at hnone
      cases hnone

/-- An item of a category with a start row always appears among the
items-sheet writes. -/
theorem sheetWrites_mem (items : List ExportRoute.ExportItem)
    (it : ExportRoute.ExportItem) (hin : it ∈ items) (s : Nat)
    (hsome : ExportRoute.rowStartMap (ExportRoute.itemCat it) = some s) :
    it ∈ (ExportRoute.sheetWrites items).map Prod.snd := by
  have hc1 : ExportRoute.itemCat it ∈ items.map ExportRoute.itemCat :=
    List.mem_map_of_mem ExportRoute.itemCat hin
  have hc2 : ExportRoute.itemCat it ∈ (items.map ExportRoute.itemCat).dedup :=
    List.mem_dedup.mpr hc1
  have hc3 : ExportRoute.itemCat it ∈
      ExportRoute.sortAsc ((items.map ExportRoute.itemCat).dedup) :=
    (mem_sortAsc _ _).mpr hc2
  have hflt : it ∈ items.filter (fun x => ExportRoute.itemCat x == ExportRoute.itemCat it) :=
    List.mem_filter.mpr ⟨hin, by simp⟩
  have hinen : it ∈ (ExportRoute.enumFrom s
      (items.filter (fun x => ExportRoute.itemCat x == ExportRoute.itemCat it))).map
        Prod.snd := by
    rw [enumFrom_map_snd]; exact hflt
  obtain ⟨pr, hpr, hsnd⟩ := List.mem_map.mp hinen
  have hwf : pr ∈ ExportRoute.writesFor items (ExportRoute.itemCat it) := by
    unfold ExportRoute.writesFor
    rw [hsome]
    exact hpr
  have hsw : pr ∈ ExportRoute.sheetWrites items :=
    foldlAppend_mem_of _ _ [] _ pr hc3 hwf
  rw [← hsnd]
  exact List.mem_map_of_mem Prod.snd hsw

/-!
Lemmas about the upload route.
-/

/-- Every request the active handler accepts carries an integral slot index
between 0 and 3, for both kinds. -/
theorem POST_slot_range (r : UploadRoute.UploadReq) (res : UploadRoute.UploadOk)
    (h : UploadRoute.POST r = Except.ok res) :
    0 ≤ res.slotIndex ∧ res.slotIndex ≤ 3 ∧ res.slotIndex.den = 1 := by
  simp only [UploadRoute.POST] at h
  repeat' split at h
  all_goals try exact Except.noConfusion h
  all_goals rename_i hden hfile hrange hsize hct
  all_goals
    have hres := Except.ok.inj h
  all_goals subst hres
  all_goals push_neg at hrange
  all_goals exact ⟨hrange.1, hrange.2, by simpa using hden⟩

/-- Every inbound request the superseded handler accepts has slot 0. -/
theorem legacy_inbound_slot0 (expenseItemId slotRaw : String) (hasFile : Bool)
    (fileType : String) (res : String × ℚ)
    (h : UploadRoute.legacyUploadValidate expenseItemId "inbound" slotRaw hasFile
      fileType = Except.ok res) : res.2 = 0 := by
  simp only [UploadRoute.legacyUploadValidate] at h
  repeat' split at h
  all_goals try exact Except.noConfusion h
  rename_i hrange hslot hft
  have hres := Except.ok.inj h
  subst hres
  push_neg at hslot
  exact hslot trivial

/-- The number of detail rows is unchanged by the numbering loop. -/
theorem assignEvidenceLoop_detail_length (l : List Page.ExcelPreviewRow) (n : Nat) :
    ((Page.assignEvidenceLoop n l).filter (fun p => p.isDetail)).length =
      l.countP (fun p => p.isDetail) := by
  have h := congrArg List.length (assignEvidenceLoop_detail_map l n)
  simpa using h

deriving instance DecidableEq for Except

/-!
Claim theorems.
-/

/-- Claim C1, counterexample: the claim says evidence numbers restart at 1
at each category transition; on a workbook with two category blocks of one
detail row each, the single detail row of the second block receives evidence
number 2, not 1. -/
theorem C1_counterexample :
    Page.parseExcelForPreview exGridTwoCats = some exPvTwoCats ∧
    perCategoryEvidence exPvTwoCats "나" = [some 2] ∧
    ([some 2] : List (Option Nat)) ≠ [some 1] := by decide

/-- Claim C1, amended: in every successful import parse, the evidence
numbers of the accepted detail rows form one contiguous sequence 1, 2, 3,
and so on across the whole pass, in row order, with no reset at category
transitions. -/
theorem C1_amended (rows : List (List String)) (pv : List Page.ExcelPreviewRow)
    (h : Page.parseExcelForPreview rows = some pv) :
    (pv.filter (fun p => p.isDetail)).map (fun p => p.evidence_no) =
      (List.range' 1 ((pv.filter (fun p => p.isDetail)).length)).map some := by
  obtain ⟨hi, _, _, hpv⟩ := parseExcelForPreview_eq rows pv h
  subst hpv
  rw [assignEvidenceLoop_detail_map, assignEvidenceLoop_detail_length]

/-- Claim C1, witness for the amended theorem at the two-block workbook. -/
theorem C1_witness :
    (exPvTwoCats.filter (fun p => p.isDetail)).map (fun p => p.evidence_no) =
      (List.range' 1 ((exPvTwoCats.filter (fun p => p.isDetail)).length)).map some :=
  C1_amended exGridTwoCats exPvTwoCats (by decide)

/-- Claim C2: importing the same workbook twice is idempotent — running the
commit a second time on the same parsed preview leaves the persisted item
list exactly as after the first commit, with no duplicate rows and no lost
rows. -/
theorem C2_theorem (rows : List (List String)) (db : List Page.DbItem)
    (pv : List Page.ExcelPreviewRow) (_h : Page.parseExcelForPreview rows = some pv) :
    Page.saveExcelPreviewToDb (Page.saveExcelPreviewToDb db pv) pv =
      Page.saveExcelPreviewToDb db pv :=
  save_idem db pv

/-- Claim C2, witness at a one-row workbook committed into an empty
document. -/
theorem C2_witness :
    Page.parseExcelForPreview exGridOneItem = some exPvOneItem ∧
    Page.saveExcelPreviewToDb (Page.saveExcelPreviewToDb [] exPvOneItem) exPvOneItem =
      Page.saveExcelPreviewToDb [] exPvOneItem :=
  ⟨by decide, C2_theorem exGridOneItem [] exPvOneItem (by decide)⟩

/-- Claim C3, counterexample: the claim says a row named 총계 is never
committed; a workbook whose only body row is named 총계 parses and commits
that row. -/
theorem C3_counterexample :
    (Page.parseExcelForPreview exGridChonggye).map
      (fun pv => (Page.saveExcelPreviewToDb [] pv).map (fun r => r.item_name)) =
      some ["총계"] := by decide

/-- Claim C3, amended: the total-row sentinels are exactly 계 and 합계 —
no row the commit adds to the document is named 계 or 합계 (총계 and 소계
are treated as ordinary item names). -/
theorem C3_amended (rows : List (List String)) (pv : List Page.ExcelPreviewRow)
    (db : List Page.DbItem) (r : Page.DbItem)
    (h : Page.parseExcelForPreview rows = some pv)
    (hr : r ∈ Page.saveExcelPreviewToDb db pv) (hnew : r ∉ db) :
    r.item_name ≠ "계" ∧ r.item_name ≠ "합계" := by
  obtain ⟨p, hp, hd, hname, _⟩ := save_new_mem db pv r hr hnew
  have hgye := (parse_mem_isDetail rows pv h p hp hd).2
  refine ⟨?_, ?_⟩ <;> rw [hname] <;> intro heq <;> rw [heq] at hgye <;>
    simp [Page.isGye] at hgye

/-- Claim C3, witness at a one-row workbook committed into an empty
document. -/
theorem C3_witness : exDbRowOneItem.item_name ≠ "계" ∧ exDbRowOneItem.item_name ≠ "합계" :=
  C3_amended exGridOneItem exPvOneItem [] exDbRowOneItem (by decide) (by decide)
    (by decide)

/-- Claim C4, counterexample: the claim says a body row whose quantity cell
is 0 is rejected and not persisted; a workbook whose only body row has item
name 장갑 and quantity cell 0 commits that row with quantity 0. -/
theorem C4_counterexample :
    (Page.parseExcelForPreview exGridQtyZero).map
      (fun pv => (Page.saveExcelPreviewToDb [] pv).map (fun r => (r.item_name, r.qty))) =
      some [("장갑", (0 : ℚ))] := by decide

/-- Claim C4, amended: quantity coercion strips thousands separators so the
cell text of 1,234 normalises to 1234, and a quantity cell of 0 or blank
coerces to null so the stored quantity defaults to 0 — but such a row is
still persisted as an item when its item-name cell is non-blank. -/
theorem C4_amended :
    Page.toNumberOrNull "1,234" = some 1234 ∧
    Page.toNumberOrNull "0" = none ∧
    Page.toNumberOrNull "" = none ∧
    Page.parseExcelForPreview exGridQtyZero = some exPvQtyZero ∧
    (Page.saveExcelPreviewToDb [] exPvQtyZero).map (fun r => r.qty) = [0] := by decide

/-- Claim C5, counterexample: the claim says every other date shape maps to
a null date; the shape 22/25/99 is passed through unchanged by the
database date normaliser, not mapped to null. -/
theorem C5_counterexample :
    Page.toDateForDb (some "22/25/99") = some "22/25/99" ∧
    Page.toDateForDb (some "22/25/99") ≠ none := by decide

/-- Claim C5, amended: the two accepted shapes normalise as claimed
(two-digit years of at least 70 map into the 1900s, the rest into the
2000s), but the active normaliser toDateForDb returns every other
non-empty text unchanged; only toISODate of the alternative importer maps
other shapes to null. -/
theorem C5_amended :
    Page.toDateForDb (some "25.12.22") = some "2025-12-22" ∧
    Page.toDateForDb (some "2025-12-22") = some "2025-12-22" ∧
    Page.toDateForDb (some "2025.12.22") = some "2025-12-22" ∧
    Page.toDateForDb (some "70.1.2") = some "1970-01-02" ∧
    (∀ s : String, matchDotYY s = none → matchSepYYYY s = none → s ≠ "" →
      Page.toDateForDb (some s) = some s) ∧
    ImportLib.toISODate "25.12.22" = some "2025-12-22" ∧
    ImportLib.toISODate "22/25/99" = none := by
  refine ⟨by decide, by decide, by decide, by decide, ?_, by decide, by decide⟩
  intro s h1 h2 h3
  simp [Page.toDateForDb, h1, h2, h3]

/-- Claim C5, witness for the passthrough conjunct of the amended
theorem. -/
theorem C5_witness : Page.toDateForDb (some "hello") = some "hello" :=
  C5_amended.2.2.2.2.1 "hello" (by decide) (by decide) (by decide)

/-- Claim C6: a photo fetch serves from the primary bucket when it
resolves there; on any primary failure it retries exactly once against the
fallback bucket; and when that single fallback also fails for any fetched
photo, the whole export fails and no workbook value is returned. -/
theorem C6_theorem :
    (∀ (env : ExportRoute.ExportEnv) (p : String) (b : Nat),
      env.fetch ExportRoute.BUCKET p = some b →
      ExportRoute.fetchImageBuffer env p = some (b, ExportRoute.extOf p)) ∧
    (∀ (env : ExportRoute.ExportEnv) (p : String),
      env.fetch ExportRoute.BUCKET p = none →
      ExportRoute.fetchImageBuffer env p =
        ExportRoute.fetchImageBufferFromBucket env ExportRoute.BUCKET_FALLBACK p) ∧
    (∀ (env : ExportRoute.ExportEnv) (items : List ExportRoute.ExportItem),
      (∃ it ∈ items, ∃ ph ∈ ExportRoute.fetchedPhotos env it,
        ExportRoute.fetchImageBuffer env ph.storage_path = none) →
      ∀ res, ExportRoute.GET env items ≠ Except.ok res) := by
  refine ⟨?_, ?_, ?_⟩
  · intro env p b h
    simp [ExportRoute.fetchImageBuffer, ExportRoute.fetchImageBufferFromBucket, h]
  · intro env p h
    simp [ExportRoute.fetchImageBuffer, ExportRoute.fetchImageBufferFromBucket, h]
  · intro env items h res
    exact GET_no_ok env items h res

/-- Claim C6, witness: with every storage fetch failing, the export of one
item with one install photo returns no workbook. -/
theorem C6_witness :
    ExportRoute.GET envAllFail [itemPlain] ≠ Except.ok ⟨[], []⟩ :=
  C6_theorem.2.2 envAllFail [itemPlain] (by decide) ⟨[], []⟩

/-- Claim C7: for each photo kind the layout is the full block for one
photo, the left-right split for two, one full-width half plus two bottom
halves for three, and the two-by-two grid for four or more — stated for
the inbound block ranges and the install block ranges alike; and for
either kind, whenever the first four photos fetch successfully, placement
succeeds and places exactly the minimum of the photo count and four
images, silently dropping photos beyond the fourth. -/
theorem C7_theorem :
    ExportRoute.getInboundRanges 1 = ["B6:E15"] ∧
    ExportRoute.getInboundRanges 2 = ["B6:C15", "D6:E15"] ∧
    ExportRoute.getInboundRanges 3 = ["B6:E10", "B11:C15", "D11:E15"] ∧
    (∀ n, 4 ≤ n →
      ExportRoute.getInboundRanges n = ["B6:C10", "D6:E10", "B11:C15", "D11:E15"]) ∧
    ExportRoute.getInstallRanges 1 = ["F6:I15"] ∧
    ExportRoute.getInstallRanges 2 = ["F6:G15", "H6:I15"] ∧
    ExportRoute.getInstallRanges 3 = ["F6:I10", "F11:G15", "H11:I15"] ∧
    (∀ n, 4 ≤ n →
      ExportRoute.getInstallRanges n = ["F6:G10", "H6:I10", "F11:G15", "H11:I15"]) ∧
    (∀ (env : ExportRoute.ExportEnv) (photos : List ExportRoute.PhotoRow),
      (∀ ph ∈ photos.take 4, ExportRoute.fetchImageBuffer env ph.storage_path ≠ none) →
      ∃ placed, ExportRoute.applyPhotosToRanges env
          (ExportRoute.getInboundRanges (min photos.length 4)) photos =
          Except.ok placed ∧
        placed.length = min photos.length 4) ∧
    (∀ (env : ExportRoute.ExportEnv) (photos : List ExportRoute.PhotoRow),
      (∀ ph ∈ photos.take 4, ExportRoute.fetchImageBuffer env ph.storage_path ≠ none) →
      ∃ placed, ExportRoute.applyPhotosToRanges env
          (ExportRoute.getInstallRanges (min photos.length 4)) photos =
          Except.ok placed ∧
        placed.length = min photos.length 4) := by
  refine ⟨by decide, by decide, by decide, ?_, by decide, by decide, by decide, ?_,
    ?_, ?_⟩
  · intro n hn
    unfold ExportRoute.getInboundRanges
    split_ifs <;> first | rfl | omega
  · intro n hn
    unfold ExportRoute.getInstallRanges
    split_ifs <;> first | rfl | omega
  · intro env photos hall
    exact applyPhotos_min4 ExportRoute.getInboundRanges getInboundRanges_length env
      photos hall
  · intro env photos hall
    exact applyPhotos_min4 ExportRoute.getInstallRanges getInstallRanges_length env
      photos hall

/-- Claim C7, witness: five inbound photos and five install photos in a
fully resolving environment each place exactly four images. -/
theorem C7_witness :
    (ExportRoute.applyPhotosToRanges envAllOk
        (ExportRoute.getInboundRanges (min photosFiveInbound.length 4))
        photosFiveInbound).isOk = true ∧
    (ExportRoute.applyPhotosToRanges envAllOk
        (ExportRoute.getInstallRanges (min photosFive.length 4)) photosFive).isOk =
      true := by
  constructor
  · obtain ⟨placed, hpl, hlen⟩ :=
      C7_theorem.2.2.2.2.2.2.2.2.1 envAllOk photosFiveInbound (by decide)
    rw [hpl]
    rfl
  · obtain ⟨placed, hpl, hlen⟩ :=
      C7_theorem.2.2.2.2.2.2.2.2.2 envAllOk photosFive (by decide)
    rw [hpl]
    rfl

/-- Claim C8, counterexample: the claim says a workbook whose quantity
column cannot be mapped is a hard parse failure with nothing committed; a
workbook with no quantity column at all parses successfully and commits
its detail row. -/
theorem C8_counterexample :
    Page.colIndex ((exGridNoQty.getD 0 []).map Page.norm) ["수량"] = none ∧
    (Page.parseExcelForPreview exGridNoQty).map
      (fun pv => (Page.saveExcelPreviewToDb [] pv).map (fun r => r.item_name)) =
      some ["장갑"] := by decide

/-- Claim C8, amended: in the current import a hard parse failure after
header mapping occurs exactly when neither the item-description column nor
the category column can be mapped — when both are unmappable the parse is
a hard failure and nothing is committed, while a missing quantity column
is tolerated (quantities default to 0).  Only the superseded import
importExcelToItems treated the item-name and quantity columns as jointly
mandatory; it hard-fails on the very workbook without a quantity column
that the current import commits. -/
theorem C8_amended :
    (∀ (rows : List (List String)) (pv : List Page.ExcelPreviewRow) (hi : Nat),
      Page.parseExcelForPreview rows = some pv →
      Page.findHeaderRow rows = some hi →
      (Page.colIndex ((rows.getD hi []).map Page.norm)
          ["사용내역", "품명", "내용", "적요", "품목", "품목명"] ≠ none ∨
        Page.colIndex ((rows.getD hi []).map Page.norm) ["항목", "구분", "대분류"] ≠ none)) ∧
    (∀ (rows : List (List String)) (hi : Nat),
      Page.findHeaderRow rows = some hi →
      Page.colIndex ((rows.getD hi []).map Page.norm)
        ["사용내역", "품명", "내용", "적요", "품목", "품목명"] = none →
      Page.colIndex ((rows.getD hi []).map Page.norm) ["항목", "구분", "대분류"] = none →
      Page.parseExcelForPreview rows = none) ∧
    (∀ (rows : List (List String)) (res : List LegacyPage.LegacyItem) (hi : Nat),
      LegacyPage.importExcelToItems rows = some res →
      LegacyPage.findHeaderRow rows = some hi →
      (Page.colIndex ((rows.getD hi []).map Page.norm)
          ["품명", "내용", "품목", "품목명", "항목", "적요"] ≠ none ∧
        Page.colIndex ((rows.getD hi []).map Page.norm) ["수량"] ≠ none)) ∧
    Page.parseExcelForPreview exGridNoQty ≠ none ∧
    LegacyPage.importExcelToItems exGridNoQty = none := by
  refine ⟨?_, ?_, ?_, by decide, by decide⟩
  · intro rows pv hi h hfh
    obtain ⟨hi2, hfh2, hcol, _⟩ := parseExcelForPreview_eq rows pv h
    rw [hfh] at hfh2
    obtain rfl := (Option.some.inj hfh2).symm
    tauto
  · intro rows hi hfh h1 h2
    unfold Page.parseExcelForPreview
    rw [hfh]
    simp only []
    simp only [h1, h2]
    simp
  · intro rows res hi h hfh
    unfold LegacyPage.importExcelToItems at h
    rw [hfh] at h
    simp only at h
    split_ifs at h with h1 h2 h3
    all_goals try cases h
    push_neg at h1
    exact h1

/-- Claim C8, witness for the current-import conjunct at the workbook with
no quantity column. -/
theorem C8_witness :
    Page.colIndex ((exGridNoQty.getD 0 []).map Page.norm)
        ["사용내역", "품명", "내용", "적요", "품목", "품목명"] ≠ none ∨
      Page.colIndex ((exGridNoQty.getD 0 []).map Page.norm) ["항목", "구분", "대분류"] ≠ none :=
  C8_amended.1 exGridNoQty exPvNoQty 0 (by decide) (by decide)

/-- Claim C9, counterexample: the claim says the server accepts only slot
index 0 for the inbound kind; the active handler accepts an inbound upload
with slot index 2. -/
theorem C9_counterexample :
    UploadRoute.POST reqInboundSlot2 = Except.ok okInboundSlot2 ∧
    okInboundSlot2.kind = UploadRoute.Kind.inbound ∧
    okInboundSlot2.slotIndex = 2 := by decide

/-- Claim C9, amended: the active handler caps the slot index at the
integral range 0 to 3 for both kinds (so an item can hold up to four
inbound photos as far as the server is concerned); only the superseded
handler pinned inbound uploads to slot 0. -/
theorem C9_amended :
    (∀ (r : UploadRoute.UploadReq) (res : UploadRoute.UploadOk),
      UploadRoute.POST r = Except.ok res →
      0 ≤ res.slotIndex ∧ res.slotIndex ≤ 3 ∧ res.slotIndex.den = 1) ∧
    (∀ (expenseItemId slotRaw : String) (hasFile : Bool) (fileType : String)
      (res : String × ℚ),
      UploadRoute.legacyUploadValidate expenseItemId "inbound" slotRaw hasFile
        fileType = Except.ok res → res.2 = 0) :=
  ⟨POST_slot_range, legacy_inbound_slot0⟩

/-- Claim C9, witness at the accepted inbound request with slot 2. -/
theorem C9_witness :
    0 ≤ okInboundSlot2.slotIndex ∧ okInboundSlot2.slotIndex ≤ 3 ∧
      okInboundSlot2.slotIndex.den = 1 :=
  C9_amended.1 reqInboundSlot2 okInboundSlot2 (by decide)

/-- Claim C10: line items land on the first sheet exactly when their
category number has a static start row (2 from row 8, 3 from row 20, 9
from row 60); an item with any other category number is omitted from the
items sheet, yet the export still succeeds and still clones one photo
sheet per item, the omitted item included. -/
theorem C10_theorem :
    ExportRoute.rowStartMap 2 = some 8 ∧
    ExportRoute.rowStartMap 3 = some 20 ∧
    ExportRoute.rowStartMap 9 = some 60 ∧
    (∀ (items : List ExportRoute.ExportItem) (it : ExportRoute.ExportItem),
      it ∈ items → ExportRoute.rowStartMap (ExportRoute.itemCat it) = none →
      it ∉ (ExportRoute.sheetWrites items).map Prod.snd) ∧
    (∀ (items : List ExportRoute.ExportItem) (it : ExportRoute.ExportItem) (s : Nat),
      it ∈ items → ExportRoute.rowStartMap (ExportRoute.itemCat it) = some s →
      it ∈ (ExportRoute.sheetWrites items).map Prod.snd) ∧
    (∀ (env : ExportRoute.ExportEnv) (items : List ExportRoute.ExportItem),
      env.hasPhotoTemplate = true →
      (∀ it ∈ items, ∀ ph ∈ ExportRoute.fetchedPhotos env it,
        ExportRoute.fetchImageBuffer env ph.storage_path ≠ none) →
      ∃ out, ExportRoute.GET env items = Except.ok out ∧
        out.writes = ExportRoute.sheetWrites items ∧
        out.sheets.length = items.length) := by
  refine ⟨by decide, by decide, by decide, ?_, ?_, ?_⟩
  · intro items it _ hnone
    exact sheetWrites_not_mem items it hnone
  · intro items it s hin hsome
    exact sheetWrites_mem items it hin s hsome
  · intro env items htpl hall
    exact GET_ok env items htpl hall

/-- Claim C10, witness: the category-5 item is omitted from the items
sheet of an export containing it alongside a category-2 item. -/
theorem C10_witness :
    itemBadCat ∉ (ExportRoute.sheetWrites [itemPlain, itemBadCat]).map Prod.snd :=
  C10_theorem.2.2.2.1 [itemPlain, itemBadCat] itemBadCat (by decide) (by decide)
